import Mathlib

/-!
# Verification of the lookbook-admin ingestion and versioned-publishing core

This development is a shallow embedding of the ingestion pipeline
(`packages/api/src/routes/webhook.ts`, `packages/api/src/lib/apify.ts`,
the crypto helpers) and of the versioned publisher
(`packages/api/src/lib/versioning.ts`, `packages/api/src/routes/menus.ts`).

Modelling conventions:
* JavaScript numbers are modelled as exact decimal fractions (`Dec`:
  an integer mantissa and a power-of-ten scale), the values produced by
  parsing decimal literals; `Math.round` is round-half-up.  All inputs
  exercised here are short decimal prices, where the ideal-arithmetic
  semantics and IEEE-754 semantics agree.
* Wall-clock instants are natural numbers (milliseconds); each entry
  point receives the instant at which it runs as an explicit `now`
  argument.
* The SHA-256 content fingerprint is modelled as a collision-free
  fingerprint: the import row stores the serialized payload itself, and
  the claim-code hash is an injective tagging function.  Only equality
  of fingerprints is ever relied upon by the code.
* The tabular store (Supabase REST) commits each statement
  independently; each statement may also fail (network/HTTP error),
  which the hand-rolled client surfaces as `{data: null, error}` without
  throwing.  Failures are injected by an explicit oracle
  `dbFault : Nat → Option String` consulted at a per-statement counter,
  mirroring that any individual REST call may fail.
* The blob store (R2) is a key-value map; `put`/`get` of the versioning
  subsystem may throw, injected by the oracle `blobFault : Nat → Bool`.
-/

/-! ## JavaScript primitive helpers -/

/-- Truthiness of a `string | undefined | null` JavaScript value:
`undefined`, `null` and the empty string are falsy. -/
def jsTruthyS : Option String → Bool
  | none => false
  | some s => s ≠ ""

/-- JavaScript `a || b` on `string | undefined | null` values. -/
def jsOrS (a b : Option String) : Option String :=
  if jsTruthyS a then a else b

/-- JavaScript `a || null` on a `string | undefined | null` value. -/
def jsOrNullS (a : Option String) : Option String :=
  if jsTruthyS a then a else none

/-- JavaScript `a || d` where `d` is a non-empty string literal default. -/
def jsOrDefaultS (a : Option String) (d : String) : String :=
  match a with
  | some s => if s = "" then d else s
  | none => d

/-- Numeric value of a list of decimal digit characters. -/
def digitsToNat (ds : List Char) : Nat :=
  ds.foldl (fun acc c => acc * 10 + (c.toNat - '0'.toNat)) 0

/-- `10 ^ n` as an integer. -/
def pow10 : Nat → ℤ
  | 0 => 1
  | n + 1 => 10 * pow10 n

/-- A JavaScript number arising from a decimal literal: the exact value
`mant / 10 ^ scale`. -/
structure Dec where
  mant : ℤ
  scale : Nat
deriving DecidableEq

/-- Decimal literals such as `12.99` denote `Dec` values. -/
instance : OfScientific Dec :=
  ⟨fun m b e => if b then ⟨(m : ℤ), e⟩ else ⟨(m : ℤ) * pow10 e, 0⟩⟩

instance : OfNat Dec n := ⟨⟨(n : ℤ), 0⟩⟩

/-- Whitespace characters recognised by the model (the common subset of
JavaScript `\s` that can occur in price strings). -/
def isJsSpace (c : Char) : Bool :=
  c = ' ' || c = '\t' || c = '\n' || c = '\r'

/-- JavaScript `parseFloat`: skip leading whitespace, parse the longest
prefix of the shape `[+-]? digits [. digits]? ([eE][+-]?digits)?`
(requiring at least one mantissa digit), ignore the rest; `NaN`
(modelled as `none`) when no digit is consumed.  The special `Infinity`
literal is not modelled; no input considered here contains it. -/
def jsParseFloat (s : String) : Option Dec :=
  let cs := s.toList.dropWhile isJsSpace
  let sgn : ℤ × List Char :=
    match cs with
    | '+' :: rest => (1, rest)
    | '-' :: rest => (-1, rest)
    | _ => (1, cs)
  let cs1 := sgn.2
  let intDigits := cs1.takeWhile Char.isDigit
  let cs2 := cs1.dropWhile Char.isDigit
  let frac : List Char × List Char :=
    match cs2 with
    | '.' :: rest => (rest.takeWhile Char.isDigit, rest.dropWhile Char.isDigit)
    | _ => ([], cs2)
  let fracDigits := frac.1
  if intDigits.isEmpty && fracDigits.isEmpty then none
  else
    let mant : ℤ := sgn.1 * (digitsToNat (intDigits ++ fracDigits) : ℤ)
    let expVal : ℤ :=
      match frac.2 with
      | 'e' :: rest | 'E' :: rest =>
        let esgn : ℤ × List Char :=
          match rest with
          | '+' :: r => (1, r)
          | '-' :: r => (-1, r)
          | _ => (1, rest)
        let eds := esgn.2.takeWhile Char.isDigit
        if eds.isEmpty then 0 else esgn.1 * (digitsToNat eds : ℤ)
      | _ => 0
    if expVal ≥ 0 then some ⟨mant * pow10 expVal.toNat, fracDigits.length⟩
    else some ⟨mant, fracDigits.length + (-expVal).toNat⟩

/-- JavaScript `Math.round (d * 100)` for a decimal value `d`:
`⌊d * 100 + 1/2⌋`, computed exactly on the fraction
`(d.mant * 100) / 10 ^ d.scale`.  (Math.round rounds half toward
positive infinity.) -/
def jsRoundTimes100 (d : Dec) : ℤ :=
  Int.fdiv (2 * (d.mant * 100) + pow10 d.scale) (2 * pow10 d.scale)

/-- The character filter of `parsePriceToCents`:
`String(price).replace(/[$\s,]/g, '')`. -/
def stripPriceChars (s : String) : String :=
  String.mk (s.toList.filter (fun c => !(c = '$' || c = ',' || isJsSpace c)))

/-! ## Upstream scrape data model (`lib/apify.ts` types, narrowed to the
fields the webhook handler reads) -/

/-- An item price as it appears in the scraped JSON: a structured
`{amount, display}` object, a bare number, or a string. -/
inductive PriceVal where
  | num (v : Dec)
  | str (v : String)
  | obj (amount : Option Dec) (display : Option String)
deriving DecidableEq

/-- Truthiness of a price value: `0` and `""` are falsy, objects are
always truthy. -/
def jsTruthyPrice : PriceVal → Bool
  | .num q => q.mant ≠ 0
  | .str s => s ≠ ""
  | .obj _ _ => true

/-- `String(price)` for the values that reach the string branch of
`parsePriceToCents` (strings pass through; objects without an `amount`
key stringify to `"[object Object]"`). -/
def jsStringOfPrice : PriceVal → String
  | .str t => t
  | _ => "[object Object]"

/-- `parsePriceToCents` from `lib/apify.ts` (lines 183–200): `null` and
`undefined` give `null`; a number is dollars, rounded to integer cents;
a string is stripped of `$`, whitespace and commas, then parsed with
`parseFloat`; an empty or unparseable result gives `null`. -/
def parsePriceToCents : Option PriceVal → Option ℤ
  | none => none
  | some (.num q) => some (jsRoundTimes100 q)
  | some v =>
    let cleaned := stripPriceChars (jsStringOfPrice v)
    if cleaned = "" then none
    else
      match jsParseFloat cleaned with
      | none => none
      | some q => some (jsRoundTimes100 q)

/-- The per-item price logic of `normalizeAndStoreStore`
(`routes/webhook.ts` lines 367–377): falsy prices are left `null`; an
object carrying an `amount` key is rounded directly
(`Math.round((priceData.amount || 0) * 100)`); everything else goes
through `parsePriceToCents`. -/
def itemPriceCents (p : Option PriceVal) : Option ℤ :=
  match p with
  | none => none
  | some v =>
    if jsTruthyPrice v then
      match v with
      | .obj (some a) _ => some (jsRoundTimes100 a)
      | _ => parsePriceToCents (some v)
    else none

/-! ## Name cleanup helpers of `normalizeAndStoreStore` -/

/-- Characters kept verbatim by the slug regex `[^a-z0-9]+` (after
lowercasing). -/
def isSlugChar (c : Char) : Bool :=
  ('a' ≤ c && c ≤ 'z') || c.isDigit

/-- `replace(/[^a-z0-9]+/g, '-')`: each maximal run of non-slug
characters becomes a single dash.  The boolean argument tracks whether
the previous character was part of such a run (whose dash has already
been emitted). -/
def slugChars : Bool → List Char → List Char
  | _, [] => []
  | inRun, c :: rest =>
    if isSlugChar c then c :: slugChars false rest
    else if inRun then slugChars true rest
    else '-' :: slugChars true rest

/-- `(name || 'store').toLowerCase().replace(/[^a-z0-9]+/g, '-')`. -/
def slugify (s : String) : String :=
  String.mk (slugChars false (s.toList.map Char.toLower))

/-- JavaScript `\w`. -/
def isWordChar (c : Char) : Bool := c.isAlphanum || c = '_'

/-- `replace(/\b\w/g, c => c.toUpperCase())`: uppercase each word
character at a word boundary.  The boolean argument tracks whether the
previous character was a word character. -/
def titleCaseChars : Bool → List Char → List Char
  | _, [] => []
  | prevWord, c :: rest =>
    (if !prevWord && isWordChar c then c.toUpper else c) :: titleCaseChars (isWordChar c) rest

/-- The category-name cleanup of `normalizeAndStoreStore` (lines
340–343): `(category.name || 'Uncategorized').replace(/_/g, '
').replace(/\b\w/g, c => c.toUpperCase())`. -/
def cleanCategoryName (a : Option String) : String :=
  let base := jsOrDefaultS a "Uncategorized"
  String.mk (titleCaseChars false ((base.toList).map (fun c => if c = '_' then ' ' else c)))

/-- `(item.name || 'Unknown Item').replace(/^!/, '')`. -/
def stripLeadingBang (s : String) : String :=
  match s.toList with
  | '!' :: rest => String.mk rest
  | _ => s

example : parsePriceToCents (some (.str "$12.99")) = some 1299 := by decide
example : parsePriceToCents (some (.num 12.99)) = some 1299 := by decide
example : cleanCategoryName (some "hot_dogs") = "Hot Dogs" := by decide
example : cleanCategoryName none = "Uncategorized" := by decide
example : slugify "Joe's Pizza #1" = "joe-s-pizza-1" := by decide

/-! ## Scraped store records (`DoorDashScrapedStore`, narrowed to the
fields `normalizeAndStoreStore` reads) -/

/-- Address fields read by the handler, from either the nested
`restaurant.location.address` or the top-level `store.address`. -/
structure Addr where
  street : Option String
  city : Option String
  state : Option String
  zipCode : Option String
deriving DecidableEq

/-- The nested `restaurant` object of the Apify scraper format;
`address` models `restaurant.location?.address`. -/
structure RInfo where
  id : Option String
  name : Option String
  address : Option Addr
deriving DecidableEq

/-- One entry of an item `images` array. -/
structure RawImage where
  url : Option String
deriving DecidableEq

/-- One scraped menu item (`DoorDashScrapedItem`).  `category` is only
ever read by UI code, never by the ingestion path; `options` is carried
opaquely into the stored `raw` payload. -/
structure RawItem where
  name : Option String
  description : Option String
  price : Option PriceVal
  images : Option (List RawImage)
  category : Option String
  options : Option (List String)
deriving DecidableEq

/-- A named item-list block (the `item_list_*` values, also the shape of
legacy `menuCategories` entries). -/
structure ItemList where
  name : Option String
  items : Option (List RawItem)
  sortOrder : Option ℤ
deriving DecidableEq

/-- One upstream store record (`DoorDashScrapedStore`).  `itemLists`
holds the values of the `item_list_*` keys in object-key order (only
the truthy ones, as a missing/null key is never iterated); `menu` is
the legacy flat item array, which the ingestion path never reads. -/
structure Store where
  url : Option String
  storeId : Option String
  storeName : Option String
  address : Option Addr
  phoneNumber : Option String
  restaurant : Option RInfo
  itemLists : List ItemList
  menuCategories : Option (List ItemList)
  menu : Option (List RawItem)
deriving DecidableEq

/-! ## Relational rows (`lib/supabase.ts` table types) -/

/-- A row of `imports`.  The `payloadHash` field stores the content
fingerprint: modelled as the serialized batch itself (`some items`), or
`none` for the `''` sentinel written by `recordFailedImport`.  Only
equality of fingerprints is used by the code. -/
structure ImportRow where
  source : String
  runId : String
  datasetId : String
  payloadHash : Option (List Store)
  r2Key : String
  status : String
  errorMessage : Option String
  itemCount : Option Nat
deriving DecidableEq

/-- A row of `restaurants`; `id` is the tabular store's generated key. -/
structure RestaurantRow where
  id : Nat
  name : String
  address1 : Option String
  city : Option String
  state : Option String
  zip : Option String
  phone : Option String
  website : Option String
deriving DecidableEq

/-- A row of `restaurant_sources`; `lastSeenAt` is an instant in ms. -/
structure SourceRow where
  restaurantId : Nat
  source : String
  sourceUrl : String
  externalId : Option String
  lastSeenAt : Nat
deriving DecidableEq

/-- A row of `draft_menus`. -/
structure DraftMenuRow where
  id : Nat
  restaurantId : Nat
  source : String
  sourceUrl : String
  status : String
deriving DecidableEq

/-- A row of `draft_sections`. -/
structure SectionRow where
  id : Nat
  draftMenuId : Nat
  position : Nat
  name : String
deriving DecidableEq

/-- A row of `draft_items`; `rawOriginalPrice`/`rawOptions` model the
stored `raw` payload `{originalPrice, options}`. -/
structure ItemRow where
  draftSectionId : Nat
  position : Nat
  name : String
  description : Option String
  priceCents : Option ℤ
  imageUrl : Option String
  rawOriginalPrice : Option PriceVal
  rawOptions : Option (List String)
deriving DecidableEq

/-- A row of `claims`; `expiresAt` is an instant in ms. -/
structure ClaimRow where
  restaurantId : Nat
  codeHash : String
  expiresAt : Nat
  claimedAt : Option Nat
deriving DecidableEq

/-- The tabular store.  `nextId` generates fresh row ids for the inserts
that `.select('id')` them back; `opCount` numbers the REST statements
executed so far (consulted by the fault oracle). -/
structure Db where
  imports : List ImportRow
  restaurants : List RestaurantRow
  sources : List SourceRow
  draftMenus : List DraftMenuRow
  draftSections : List SectionRow
  draftItems : List ItemRow
  claims : List ClaimRow
  nextId : Nat
  opCount : Nat
deriving DecidableEq

/-- A raw-payload archive object in the scrape bucket, stored under the
key `raw/dd/{runId}.json.gz` (keyed here by `runId`); `payload` is the
archived (compressed) batch, `itemCount` etc. the custom metadata. -/
structure RawBlob where
  runId : String
  datasetId : String
  payload : List Store
  itemCount : Nat
deriving DecidableEq

/-- The mutable world of the ingestion pipeline: the tabular store, the
scrape bucket, a counter of dataset fetches performed against the
scraping service, and a counter of random draws taken. -/
structure World where
  db : Db
  scrapeBlobs : List (String × RawBlob)
  fetchCount : Nat
  rngCount : Nat
deriving DecidableEq

/-- Static environment of the webhook: configuration secrets, the
scraping service's datasets, the tabular-store fault oracle and the
randomness source (8 bytes per draw). -/
structure Env where
  apifyWebhookSecret : Option String
  apifyToken : Option String
  supabaseUrl : Option String
  supabaseServiceRoleKey : Option String
  datasets : String → List Store
  dbFault : Nat → Option String
  rand : Nat → List Nat

/-- Overwriting `put` into a key-value blob listing. -/
def putKV [DecidableEq κ] (k : κ) (v : α) (l : List (κ × α)) : List (κ × α) :=
  (l.filter (fun e => e.1 ≠ k)) ++ [(k, v)]

/-- Overwriting `put` with string keys (the scrape bucket). -/
def putAssoc (k : String) (v : α) (l : List (String × α)) : List (String × α) :=
  putKV k v l

/-- Execute one REST statement: advance the statement counter and
consult the fault oracle. -/
def dbTick (env : Env) (w : World) : World × Option String :=
  ({ w with db := { w.db with opCount := w.db.opCount + 1 } }, env.dbFault w.db.opCount)

/-- `from('imports').select('id,status').eq('payload_hash', h).single()`:
the hand-rolled client returns `data[0]` of the matching rows, and
`{data: null}` on a failed call. -/
def selectImportByHash (env : Env) (h : Option (List Store)) (w : World) :
    World × Option ImportRow :=
  let t := dbTick env w
  (t.1, if t.2.isSome then none else w.db.imports.find? (fun r => decide (r.payloadHash = h)))

/-- `from('imports').insert(row)` (result ignored by the caller; a
failed call inserts nothing). -/
def insertImportOp (env : Env) (row : ImportRow) (w : World) : World :=
  let t := dbTick env w
  if t.2.isSome then t.1
  else { t.1 with db := { t.1.db with imports := t.1.db.imports ++ [row] } }

/-- `from('imports').update({status, error_message}).eq('run_id', runId)`
(result ignored). -/
def updateImportsByRunId (env : Env) (runId status : String)
    (errorMessage : Option String) (w : World) : World :=
  let t := dbTick env w
  if t.2.isSome then t.1
  else
    { t.1 with db := { t.1.db with imports := t.1.db.imports.map (fun r =>
        if r.runId = runId then { r with status := status, errorMessage := errorMessage } else r) } }

/-- `from('restaurant_sources').select('restaurant_id').eq('source_url', u).single()`. -/
def selectSourceByUrl (env : Env) (u : String) (w : World) : World × Option SourceRow :=
  let t := dbTick env w
  (t.1, if t.2.isSome then none else w.db.sources.find? (fun r => decide (r.sourceUrl = u)))

/-- `from('restaurants').insert(data).select('id').single()`: returns the
generated id, or the error text of a failed call. -/
def insertRestaurantOp (env : Env)
    (name : String) (address1 city state zip phone website : Option String)
    (w : World) : World × Except String Nat :=
  let t := dbTick env w
  match t.2 with
  | some e => (t.1, .error e)
  | none =>
    let rid := t.1.db.nextId
    ({ t.1 with db := { t.1.db with
        restaurants := t.1.db.restaurants ++
          [{ id := rid, name := name, address1 := address1, city := city,
             state := state, zip := zip, phone := phone, website := website }],
        nextId := rid + 1 } }, .ok rid)

/-- `from('restaurant_sources').insert(row)` (result ignored). -/
def insertSourceOp (env : Env) (row : SourceRow) (w : World) : World :=
  let t := dbTick env w
  if t.2.isSome then t.1
  else { t.1 with db := { t.1.db with sources := t.1.db.sources ++ [row] } }

/-- `from('restaurant_sources').update({last_seen_at}).eq('source_url', u)`
(result ignored). -/
def updateSourcesLastSeen (env : Env) (u : String) (now : Nat) (w : World) : World :=
  let t := dbTick env w
  if t.2.isSome then t.1
  else
    { t.1 with db := { t.1.db with sources := t.1.db.sources.map (fun r =>
        if r.sourceUrl = u then { r with lastSeenAt := now } else r) } }

/-- `from('draft_menus').insert(row).select('id').single()`. -/
def insertDraftMenuOp (env : Env) (restaurantId : Nat) (sourceUrl : String)
    (w : World) : World × Except String Nat :=
  let t := dbTick env w
  match t.2 with
  | some e => (t.1, .error e)
  | none =>
    let mid := t.1.db.nextId
    ({ t.1 with db := { t.1.db with
        draftMenus := t.1.db.draftMenus ++
          [{ id := mid, restaurantId := restaurantId, source := "doordash",
             sourceUrl := sourceUrl, status := "unclaimed" }],
        nextId := mid + 1 } }, .ok mid)

/-- `from('draft_sections').insert(row).select('id').single()`. -/
def insertSectionOp (env : Env) (draftMenuId position : Nat) (name : String)
    (w : World) : World × Except String Nat :=
  let t := dbTick env w
  match t.2 with
  | some e => (t.1, .error e)
  | none =>
    let sid := t.1.db.nextId
    ({ t.1 with db := { t.1.db with
        draftSections := t.1.db.draftSections ++
          [{ id := sid, draftMenuId := draftMenuId, position := position, name := name }],
        nextId := sid + 1 } }, .ok sid)

/-- `from('draft_items').insert(row)` (result ignored: a failed insert
is silently dropped). -/
def insertItemOp (env : Env) (row : ItemRow) (w : World) : World :=
  let t := dbTick env w
  if t.2.isSome then t.1
  else { t.1 with db := { t.1.db with draftItems := t.1.db.draftItems ++ [row] } }

/-- `from('claims').select('id').eq('restaurant_id', rid).single()`. -/
def selectClaimOp (env : Env) (rid : Nat) (w : World) : World × Option ClaimRow :=
  let t := dbTick env w
  (t.1, if t.2.isSome then none else w.db.claims.find? (fun r => decide (r.restaurantId = rid)))

/-- `from('claims').insert(row)` (result ignored). -/
def insertClaimOp (env : Env) (row : ClaimRow) (w : World) : World :=
  let t := dbTick env w
  if t.2.isSome then t.1
  else { t.1 with db := { t.1.db with claims := t.1.db.claims ++ [row] } }

/-! ## Crypto helpers (`lib/crypto.ts`) -/

/-- SHA-256 of a string, modelled as an injective fingerprint (the code
relies only on equality of digests, never on their structure). -/
def sha256 (s : String) : String := "sha256:" ++ s

/-- The confusable-free claim-code alphabet
`'ABCDEFGHJKLMNPQRSTUVWXYZ23456789'` (32 characters). -/
def claimAlphabet : List Char := "ABCDEFGHJKLMNPQRSTUVWXYZ23456789".toList

/-- `generateClaimCode` from `lib/crypto.ts`: 8 random bytes, each
reduced mod 32 into the alphabet, with a dash inserted before the 5th
character (`XXXX-XXXX`). -/
def generateClaimCode (bytes : List Nat) : String :=
  String.mk ((List.range 8).foldl (fun acc i =>
    let c := claimAlphabet.getD ((bytes.getD i 0) % 32) 'A'
    if i = 4 then acc ++ ['-', c] else acc ++ [c]) [])

/-! ## The webhook ingestion pipeline (`routes/webhook.ts`) -/

/-- Lines 204–213 of `normalizeAndStoreStore`: take `store.url` if
truthy, otherwise synthesize a DoorDash URL from the venue-name slug and
the nested restaurant id; `none` when neither exists (the handler then
throws `'Store has no URL and no restaurant ID'`). -/
def resolveSourceUrl (store : Store) : Option String :=
  if jsTruthyS store.url then store.url
  else
    match store.restaurant with
    | some ri =>
      if jsTruthyS ri.id then
        some ("https://www.doordash.com/store/" ++
          slugify (jsOrDefaultS ri.name "store") ++ "-" ++ ri.id.getD "" ++ "/")
      else none
    | none => none

/-- `storeHasIdentity` is the success condition of URL resolution. -/
def storeHasIdentity (store : Store) : Bool := (resolveSourceUrl store).isSome

/-- Lines 236–271: find the restaurant by `source_url`, or create the
restaurant row plus its first `restaurant_sources` row.  Returns the
restaurant id and whether it was created; a failed restaurant insert is
rethrown as `Failed to create restaurant: …`. -/
def findOrCreateRestaurant (env : Env) (now : Nat) (store : Store) (sourceUrl : String)
    (w : World) : World × Except String (Nat × Bool) :=
  let s := selectSourceByUrl env sourceUrl w
  match s.2 with
  | some row => (s.1, .ok (row.restaurantId, false))
  | none =>
    let rinfo := store.restaurant
    let storeName := jsOrDefaultS (jsOrS (rinfo.bind RInfo.name) store.storeName) "Unknown Restaurant"
    let address := (rinfo.bind RInfo.address).or store.address
    let storeId := jsOrS (rinfo.bind RInfo.id) store.storeId
    let ins := insertRestaurantOp env storeName
      (jsOrNullS (address.bind Addr.street)) (jsOrNullS (address.bind Addr.city))
      (jsOrNullS (address.bind Addr.state)) (jsOrNullS (address.bind Addr.zipCode))
      (jsOrNullS store.phoneNumber) (some sourceUrl) s.1
    match ins.2 with
    | .error e => (ins.1, .error ("Failed to create restaurant: " ++ e))
    | .ok rid =>
      let w2 := insertSourceOp env
        { restaurantId := rid, source := "doordash", sourceUrl := sourceUrl,
          externalId := jsOrNullS storeId, lastSeenAt := now } ins.1
      (w2, .ok (rid, true))

/-- Lines 363–394: insert the draft items of one section in order;
insert results are ignored, so a failed insert drops the item. -/
def insertItems (env : Env) (sectionId : Nat) : List RawItem → Nat → World → World
  | [], _, w => w
  | item :: rest, pos, w =>
    let row : ItemRow :=
      { draftSectionId := sectionId, position := pos,
        name := stripLeadingBang (jsOrDefaultS item.name "Unknown Item"),
        description := jsOrNullS item.description,
        priceCents := itemPriceCents item.price,
        imageUrl := jsOrNullS ((item.images.bind List.head?).bind RawImage.url),
        rawOriginalPrice := item.price,
        rawOptions := item.options }
    insertItems env sectionId rest (pos + 1) (insertItemOp env row w)

/-- Lines 337–395: insert one section per category block; a failed
section insert is logged and skipped (`continue`), its items are never
attempted, and the section position still advances. -/
def insertSections (env : Env) (draftMenuId : Nat) : List ItemList → Nat → World → World
  | [], _, w => w
  | cat :: rest, pos, w =>
    let ins := insertSectionOp env draftMenuId pos (cleanCategoryName cat.name) w
    match ins.2 with
    | .error _ => insertSections env draftMenuId rest (pos + 1) ins.1
    | .ok sid =>
      insertSections env draftMenuId rest (pos + 1)
        (insertItems env sid (cat.items.getD []) 0 ins.1)

/-- Stable sort by an integer key, modelling `Array.prototype.sort` with
the comparator `(a, b) => (a.sort_order || 0) - (b.sort_order || 0)`. -/
def insertSorted (key : ItemList → ℤ) (x : ItemList) : List ItemList → List ItemList
  | [] => [x]
  | y :: ys => if key y < key x then y :: insertSorted key x ys else x :: y :: ys

/-- Stable insertion sort (see `insertSorted`). -/
def sortByKey (key : ItemList → ℤ) : List ItemList → List ItemList
  | [] => []
  | x :: xs => insertSorted key x (sortByKey key xs)

/-- Lines 314–335: collect the `item_list_*` blocks that carry an items
array, sort them by `sort_order || 0`, and fall back to the legacy
`menuCategories` array (pushed wholesale, unsorted) when none matched
and `store.menuCategories` is truthy (any array, even empty, is). -/
def collectCategories (store : Store) : List ItemList :=
  let fromBlocks := sortByKey (fun c => c.sortOrder.getD 0)
    (store.itemLists.filter (fun c => c.items.isSome))
  if fromBlocks.isEmpty then
    match store.menuCategories with
    | some cats => cats
    | none => []
  else fromBlocks

/-- Lines 397–424: on a newly created restaurant, check for any existing
claim row and, only when none is visible, generate a code, hash it and
insert the claim with a 14-day expiry.  The flag is set after the
insert statement regardless of its outcome (the result is ignored). -/
def maybeIssueClaim (env : Env) (now : Nat) (rid : Nat) (created : Bool)
    (w : World) : World × Bool :=
  if created then
    let s := selectClaimOp env rid w
    match s.2 with
    | some _ => (s.1, false)
    | none =>
      let code := generateClaimCode (env.rand s.1.rngCount)
      let w2 := { s.1 with rngCount := s.1.rngCount + 1 }
      let w3 := insertClaimOp env
        { restaurantId := rid, codeHash := sha256 code,
          expiresAt := now + 14 * 24 * 60 * 60 * 1000, claimedAt := none } w2
      (w3, true)
  else (w, false)

/-- The result record of `normalizeAndStoreStore`. -/
structure NormFlags where
  restaurantCreated : Bool
  claimCodeGenerated : Bool
deriving DecidableEq

/-- `normalizeAndStoreStore` (lines 192–427): resolve identity, find or
create the restaurant, refresh `last_seen_at` on a re-sighting, create
a fresh draft menu, insert its sections and items, and possibly issue a
claim.  Exceptions abort the record but keep all writes already made. -/
def normalizeAndStoreStore (env : Env) (now : Nat) (store : Store)
    (w : World) : World × Except String NormFlags :=
  match resolveSourceUrl store with
  | none => (w, .error "Store has no URL and no restaurant ID")
  | some sourceUrl =>
    let f := findOrCreateRestaurant env now store sourceUrl w
    match f.2 with
    | .error e => (f.1, .error e)
    | .ok (rid, created) =>
      let w1 := if created then f.1 else updateSourcesLastSeen env sourceUrl now f.1
      let dm := insertDraftMenuOp env rid sourceUrl w1
      match dm.2 with
      | .error e => (dm.1, .error ("Failed to create draft menu: " ++ e))
      | .ok dmid =>
        let w2 := insertSections env dmid (collectCategories store) 0 dm.1
        let cl := maybeIssueClaim env now rid created w2
        (cl.1, .ok { restaurantCreated := created, claimCodeGenerated := cl.2 })

/-- The per-store loop of `processSuccessfulRun` (lines 152–166): each
record's exception is caught and recorded as
`` `${store.url || 'unknown'}: ${message}` ``, and the loop continues. -/
def processStores (env : Env) (now : Nat) :
    List Store → World → Nat → Nat → List String → World × Nat × Nat × List String
  | [], w, rc, cc, errs => (w, rc, cc, errs)
  | st :: rest, w, rc, cc, errs =>
    let r := normalizeAndStoreStore env now st w
    match r.2 with
    | .ok flags =>
      processStores env now rest r.1
        (rc + if flags.restaurantCreated then 1 else 0)
        (cc + if flags.claimCodeGenerated then 1 else 0) errs
    | .error e =>
      processStores env now rest r.1 rc cc
        (errs ++ [jsOrDefaultS st.url "unknown" ++ ": " ++ e])

/-- The response shape of `processSuccessfulRun`. -/
structure RunResult where
  r2Key : String
  itemCount : Nat
  restaurantsCreated : Nat
  claimCodesGenerated : Nat
deriving DecidableEq

/-- `processSuccessfulRun` (lines 85–186): fetch the dataset, fingerprint
it, short-circuit when the first import row carrying the same
fingerprint has status `success`; otherwise archive the raw payload,
record a `processing` import row, normalize every store record, and set
the final status (`success` with no errors, else `partial` with the
`'; '`-joined summary truncated to 1000 characters). -/
def processSuccessfulRun (env : Env) (now : Nat) (runId datasetId : String)
    (w : World) : World × RunResult :=
  let items := env.datasets datasetId
  let w0 := { w with fetchCount := w.fetchCount + 1 }
  let payloadHash : Option (List Store) := some items
  let r2Key := "raw/dd/" ++ runId ++ ".json.gz"
  let dup := selectImportByHash env payloadHash w0
  if (dup.2.map ImportRow.status).getD "" = "success" then
    (dup.1, { r2Key := r2Key, itemCount := items.length,
              restaurantsCreated := 0, claimCodesGenerated := 0 })
  else
    let blob : RawBlob :=
      { runId := runId, datasetId := datasetId, payload := items,
        itemCount := items.length }
    let w1 := { dup.1 with scrapeBlobs := putAssoc runId blob dup.1.scrapeBlobs }
    let w2 := insertImportOp env
      { source := "doordash", runId := runId, datasetId := datasetId,
        payloadHash := payloadHash, r2Key := r2Key, status := "processing",
        errorMessage := none, itemCount := some items.length } w1
    let p := processStores env now items w2 0 0 []
    let errs := p.2.2.2
    let w3 := updateImportsByRunId env runId
      (if errs.isEmpty then "success" else "partial")
      (if errs.isEmpty then none else some ((String.intercalate "; " errs).take 1000)) p.1
    (w3, { r2Key := r2Key, itemCount := items.length,
           restaurantsCreated := p.2.1, claimCodesGenerated := p.2.2.1 })

/-! ## The webhook HTTP entry point -/

/-- The `resource` object of an Apify webhook payload (fields read by
the handler). -/
structure WebhookResource where
  id : String
  statusMessage : Option String
  defaultDatasetId : String
deriving DecidableEq

/-- The `eventData` object of an Apify webhook payload. -/
structure WebhookEventData where
  actorRunId : String
deriving DecidableEq

/-- An Apify webhook payload.  `eventType` is an open string: deliveries
may carry event types outside the four documented ones. -/
structure ApifyWebhookPayload where
  eventType : String
  resource : Option WebhookResource
  eventData : Option WebhookEventData
deriving DecidableEq

/-- The JSON body of a webhook response. -/
inductive WebhookBody where
  | unauthorized
  | configError
  | failed (runId : Option String)
  | ignored (eventType : String)
  | success (runId : Option String) (result : RunResult)
deriving DecidableEq

/-- An HTTP response of the webhook route. -/
structure HttpResp where
  status : Nat
  body : WebhookBody
deriving DecidableEq

/-- `recordFailedImport` (lines 432–460): insert a `failed` import row
with empty fingerprint and archive key; skipped entirely when Supabase
is not configured. -/
def recordFailedImport (env : Env) (runId : Option String) (datasetId : Option String)
    (eventType : String) (statusMessage : Option String) (w : World) : World :=
  if !(jsTruthyS env.supabaseUrl && jsTruthyS env.supabaseServiceRoleKey) then w
  else
    insertImportOp env
      { source := "doordash", runId := runId.getD "undefined",
        datasetId := datasetId.getD "", payloadHash := none, r2Key := "",
        status := "failed",
        errorMessage := some (eventType ++ ": " ++ jsOrDefaultS statusMessage "No message"),
        itemCount := none } w

/-- `handleApifyWebhook` (lines 25–80): validate the shared secret and
required configuration, then dispatch on the event type — failure
events record a `failed` import, non-`SUCCEEDED` events are
acknowledged and ignored, and `SUCCEEDED` runs the full pipeline. -/
def handleApifyWebhook (env : Env) (now : Nat) (secret : Option String)
    (payload : ApifyWebhookPayload) (w : World) : World × HttpResp :=
  if !jsTruthyS env.apifyWebhookSecret || secret ≠ env.apifyWebhookSecret then
    (w, { status := 401, body := .unauthorized })
  else if !(jsTruthyS env.apifyToken && jsTruthyS env.supabaseUrl &&
            jsTruthyS env.supabaseServiceRoleKey) then
    (w, { status := 500, body := .configError })
  else
    let runId := jsOrS (payload.resource.map WebhookResource.id)
      (payload.eventData.map WebhookEventData.actorRunId)
    let datasetId := payload.resource.map WebhookResource.defaultDatasetId
    let et := payload.eventType
    if et = "ACTOR.RUN.FAILED" || et = "ACTOR.RUN.ABORTED" || et = "ACTOR.RUN.TIMED_OUT" then
      let w1 := recordFailedImport env runId datasetId et
        (payload.resource.bind WebhookResource.statusMessage) w
      (w1, { status := 200, body := .failed runId })
    else if et ≠ "ACTOR.RUN.SUCCEEDED" then
      (w, { status := 200, body := .ignored et })
    else
      let p := processSuccessfulRun env now (runId.getD "undefined") (datasetId.getD "undefined") w
      (p.1, { status := 200, body := .success runId p.2 })

/-! ## The versioned publisher (`lib/versioning.ts`, `routes/menus.ts`) -/

/-- A menu document as accepted by the menu-write routes: the shape
validation only requires an `items` array; item contents are opaque to
the publisher. -/
structure MenuDoc where
  items : List String
deriving DecidableEq

/-- A version entry of a manifest.  Version ids are derived from the
ISO timestamp of the write instant with `:`/`.` replaced by `-`; that
encoding is order-isomorphic to the instant, so ids are modelled as the
instant itself. -/
structure VersionEntry where
  id : Nat
  type : String
  timestamp : Nat
  keyId : String
  itemCount : Nat
deriving DecidableEq

/-- A version manifest: the current version id and the
reverse-chronological entry list (capped at 100). -/
structure Manifest where
  current : Nat
  versions : List VersionEntry
deriving DecidableEq

/-- One line of a day-bucketed audit log. -/
structure AuditLine where
  type : String
  versionId : Nat
  keyId : String
  itemCount : Nat
  timestamp : Nat
deriving DecidableEq

/-- An object of the internal bucket: a version snapshot, a manifest, an
audit-log file, or bytes that do not parse as JSON (`corrupt`). -/
inductive VObj where
  | snapshot (doc : MenuDoc)
  | manifest (m : Manifest)
  | log (lines : List AuditLine)
  | corrupt
deriving DecidableEq

/-- Keys of the internal bucket.  The string keys the code builds
(`_versions/{brand}/{store}__{menu}/…`, `_logs/…/{date}.jsonl`) are
injective in their path components for slug-shaped names, so keys are
modelled structurally. -/
inductive VKey where
  | snap (brand store menu : String) (versionId : Nat)
  | manifest (brand store menu : String)
  | auditLog (brand store menu : String) (day : Nat)
deriving DecidableEq

/-- The mutable world of the versioned publisher: the internal bucket,
the public menu bucket (live objects keyed by `(brand, store, menu)`),
and the blob-statement counter consulted by the fault oracle. -/
structure VWorld where
  internal : List (VKey × VObj)
  public : List ((String × String × String) × MenuDoc)
  opCount : Nat
deriving DecidableEq

/-- Environment of the publisher: the blob fault oracle (`true` = this
R2 call throws) and the public base URL used in responses. -/
structure VEnv where
  blobFault : Nat → Bool
  r2PublicUrl : String

/-- Overwriting `put` for structured keys. -/
def putV (k : VKey) (v : VObj) (l : List (VKey × VObj)) : List (VKey × VObj) :=
  putKV k v l

/-- One internal-bucket `put`; a faulted call throws and writes nothing. -/
def vput (env : VEnv) (k : VKey) (v : VObj) (w : VWorld) : VWorld × Except String Unit :=
  let w1 := { w with opCount := w.opCount + 1 }
  if env.blobFault w.opCount then (w1, .error "R2 put failed")
  else ({ w1 with internal := putV k v w1.internal }, .ok ())

/-- One internal-bucket `get`; a faulted call throws. -/
def vget (env : VEnv) (k : VKey) (w : VWorld) : VWorld × Except String (Option VObj) :=
  let w1 := { w with opCount := w.opCount + 1 }
  if env.blobFault w.opCount then (w1, .error "R2 get failed")
  else (w1, .ok ((w1.internal.find? (fun e => e.1 = k)).map Prod.snd))

/-- One public-bucket `put` (the live object). -/
def pput (env : VEnv) (brand store menu : String) (doc : MenuDoc) (w : VWorld) :
    VWorld × Except String Unit :=
  let w1 := { w with opCount := w.opCount + 1 }
  if env.blobFault w.opCount then (w1, .error "R2 put failed")
  else ({ w1 with public := putKV (brand, store, menu) doc w1.public }, .ok ())

/-- The live object currently at a public key. -/
def liveDoc (w : VWorld) (brand store menu : String) : Option MenuDoc :=
  (w.public.find? (fun e => e.1 = (brand, store, menu))).map Prod.snd

/-- `writeVersion` (`lib/versioning.ts` lines 42–98): write the
snapshot, load the manifest (absent or unparseable ⇒ start from the
empty default), prepend the new entry, set `current`, truncate to 100
entries, persist the manifest, and return the version id. -/
def writeVersion (env : VEnv) (brand store menu : String) (data : MenuDoc)
    (type keyId : String) (now : Nat) (w : VWorld) : VWorld × Except String Nat :=
  let versionId := now
  let p1 := vput env (.snap brand store menu versionId) (.snapshot data) w
  match p1.2 with
  | .error e => (p1.1, .error e)
  | .ok _ =>
    let g := vget env (.manifest brand store menu) p1.1
    match g.2 with
    | .error e => (g.1, .error e)
    | .ok mo =>
      let manifest : Manifest :=
        match mo with
        | some (.manifest m) => m
        | _ => { current := versionId, versions := [] }
      let entry : VersionEntry :=
        { id := versionId, type := type, timestamp := now, keyId := keyId,
          itemCount := data.items.length }
      let versions1 := entry :: manifest.versions
      let versions2 := if versions1.length > 100 then versions1.take 100 else versions1
      let m2 : Manifest := { current := versionId, versions := versions2 }
      let p2 := vput env (.manifest brand store menu) (.manifest m2) g.1
      match p2.2 with
      | .error e => (p2.1, .error e)
      | .ok _ => (p2.1, .ok versionId)

/-- `appendAuditLog` (lines 103–131): read the day's log, append one
line, write it back. -/
def appendAuditLog (env : VEnv) (brand store menu : String)
    (type : String) (versionId : Nat) (keyId : String) (itemCount : Nat)
    (now : Nat) (w : VWorld) : VWorld × Except String Unit :=
  let day := now / 86400000
  let g := vget env (.auditLog brand store menu day) w
  match g.2 with
  | .error e => (g.1, .error e)
  | .ok lo =>
    let lines : List AuditLine :=
      match lo with
      | some (.log ls) => ls
      | _ => []
    let line : AuditLine :=
      { type := type, versionId := versionId, keyId := keyId,
        itemCount := itemCount, timestamp := now }
    vput env (.auditLog brand store menu day) (.log (lines ++ [line])) g.1

/-- A response of the menu-write routes. -/
inductive MenusBody where
  | invalid
  | saved (versionId : Nat) (liveUrl : String)
  | failed
deriving DecidableEq

/-- An HTTP response of the menu routes. -/
structure MenusResp where
  status : Nat
  body : MenusBody
deriving DecidableEq

/-- `handleMenuSave` (`routes/menus.ts` lines 68–112): validate the
body, write the version snapshot + manifest, append the audit line,
then overwrite the live object; any thrown step surfaces as a 500
`Failed to save menu` and the remaining steps are skipped. -/
def handleMenuSave (env : VEnv) (keyId brand store menu : String)
    (body : Option MenuDoc) (now : Nat) (w : VWorld) : VWorld × MenusResp :=
  match body with
  | none => (w, { status := 400, body := .invalid })
  | some doc =>
    let wv := writeVersion env brand store menu doc "edit" keyId now w
    match wv.2 with
    | .error _ => (wv.1, { status := 500, body := .failed })
    | .ok versionId =>
      let al := appendAuditLog env brand store menu "edit" versionId keyId
        doc.items.length now wv.1
      match al.2 with
      | .error _ => (al.1, { status := 500, body := .failed })
      | .ok _ =>
        let lp := pput env brand store menu doc al.1
        match lp.2 with
        | .error _ => (lp.1, { status := 500, body := .failed })
        | .ok _ =>
          let liveUrl := env.r2PublicUrl ++ "/" ++ brand ++ "/" ++ store ++ "__" ++ menu ++ ".json"
          (lp.1, { status := 200, body := .saved versionId liveUrl })

/-- `handleMenuUpload` (lines 118–162): identical to `handleMenuSave`
with write type `upload`. -/
def handleMenuUpload (env : VEnv) (keyId brand store menu : String)
    (body : Option MenuDoc) (now : Nat) (w : VWorld) : VWorld × MenusResp :=
  match body with
  | none => (w, { status := 400, body := .invalid })
  | some doc =>
    let wv := writeVersion env brand store menu doc "upload" keyId now w
    match wv.2 with
    | .error _ => (wv.1, { status := 500, body := .failed })
    | .ok versionId =>
      let al := appendAuditLog env brand store menu "upload" versionId keyId
        doc.items.length now wv.1
      match al.2 with
      | .error _ => (al.1, { status := 500, body := .failed })
      | .ok _ =>
        let lp := pput env brand store menu doc al.1
        match lp.2 with
        | .error _ => (lp.1, { status := 500, body := .failed })
        | .ok _ =>
          let liveUrl := env.r2PublicUrl ++ "/" ++ brand ++ "/" ++ store ++ "__" ++ menu ++ ".json"
          (lp.1, { status := 200, body := .saved versionId liveUrl })

/-! ## Observation functions and harnesses used by the statements -/

/-- The object currently stored at an internal-bucket key. -/
def objAt (w : VWorld) (k : VKey) : Option VObj :=
  (w.internal.find? (fun e => e.1 = k)).map Prod.snd

/-- The manifest-object key of a menu. -/
def manifestAt (w : VWorld) (brand store menu : String) : Option VObj :=
  objAt w (.manifest brand store menu)

/-- The version list `writeVersion` would read for a key: the stored
manifest's `versions`, or `[]` when the manifest is absent or does not
parse. -/
def manifestVersionsAt (w : VWorld) (brand store menu : String) : List VersionEntry :=
  match manifestAt w brand store menu with
  | some (.manifest m) => m.versions
  | _ => []

/-- The prepend-and-truncate step `writeVersion` applies to the version
list it read. -/
def pushEntry (e : VersionEntry) (L : List VersionEntry) : List VersionEntry :=
  let v1 := e :: L
  if v1.length > 100 then v1.take 100 else v1

/-- The version entry an `edit` save at instant `t` of document `d`
produces. -/
def editEntry (keyId : String) (p : Nat × MenuDoc) : VersionEntry :=
  { id := p.1, type := "edit", timestamp := p.1, keyId := keyId,
    itemCount := p.2.items.length }

/-- The manifest version list expected after the sequence `writes` of
`edit` saves, newest first, capped at 100. -/
def expectedVersions (keyId : String) (writes : List (Nat × MenuDoc)) : List VersionEntry :=
  ((writes.reverse).map (editEntry keyId)).take 100

/-- Run a sequence of `(instant, document)` saves through
`handleMenuSave`, collecting the HTTP statuses. -/
def iterateSaves (env : VEnv) (keyId brand store menu : String) :
    List (Nat × MenuDoc) → VWorld → VWorld × List Nat
  | [], w => (w, [])
  | (t, d) :: rest, w =>
    let r := handleMenuSave env keyId brand store menu (some d) t w
    let it := iterateSaves env keyId brand store menu rest r.1
    (it.1, r.2.status :: it.2)

/-- The audit lines `appendAuditLog` would read for a day key: the
stored log's lines, or `[]` when absent. -/
def auditLinesAt (w : VWorld) (brand store menu : String) (day : Nat) : List AuditLine :=
  match objAt w (.auditLog brand store menu day) with
  | some (.log ls) => ls
  | _ => []

/-- The restaurant row `normalizeAndStoreStore` inserts for a
first-sighted store (fields per webhook.ts lines 238–246). -/
def restaurantRowOf (st : Store) (u : String) (rid : Nat) : RestaurantRow :=
  { id := rid,
    name := jsOrDefaultS (jsOrS (st.restaurant.bind RInfo.name) st.storeName) "Unknown Restaurant",
    address1 := jsOrNullS (((st.restaurant.bind RInfo.address).or st.address).bind Addr.street),
    city := jsOrNullS (((st.restaurant.bind RInfo.address).or st.address).bind Addr.city),
    state := jsOrNullS (((st.restaurant.bind RInfo.address).or st.address).bind Addr.state),
    zip := jsOrNullS (((st.restaurant.bind RInfo.address).or st.address).bind Addr.zipCode),
    phone := jsOrNullS st.phoneNumber,
    website := some u }

/-- The source row inserted alongside it (lines 264–270). -/
def sourceRowOf (st : Store) (u : String) (rid now : Nat) : SourceRow :=
  { restaurantId := rid, source := "doordash", sourceUrl := u,
    externalId := jsOrNullS (jsOrS (st.restaurant.bind RInfo.id) st.storeId),
    lastSeenAt := now }

/-- Run a sequence of ingestion jobs (instant, runId, datasetId)
through `processSuccessfulRun`. -/
def runIngestions (env : Env) : List (Nat × String × String) → World → World
  | [], w => w
  | (t, rid, did) :: rest, w => runIngestions env rest (processSuccessfulRun env t rid did w).1

/-- A minimal store record with only a URL (test fixture). -/
def mkSimpleStore (u : Option String) : Store :=
  { url := u, storeId := none, storeName := none, address := none,
    phoneNumber := none, restaurant := none, itemLists := [],
    menuCategories := none, menu := none }

/-- The empty tabular store. -/
def emptyDb : Db :=
  { imports := [], restaurants := [], sources := [], draftMenus := [],
    draftSections := [], draftItems := [], claims := [], nextId := 0, opCount := 0 }

/-- The empty world. -/
def emptyWorld : World :=
  { db := emptyDb, scrapeBlobs := [], fetchCount := 0, rngCount := 0 }

/-- A fully configured test environment. -/
def testEnv (datasets : String → List Store) (dbFault : Nat → Option String) : Env :=
  { apifyWebhookSecret := some "s", apifyToken := some "t", supabaseUrl := some "u",
    supabaseServiceRoleKey := some "k", datasets := datasets, dbFault := dbFault,
    rand := fun _ => [] }

/-- The blob store never fails. -/
def noBlobFaults (env : VEnv) : Prop := ∀ n, env.blobFault n = false

/-- The tabular store never fails. -/
def noDbFaults (env : Env) : Prop := ∀ n, env.dbFault n = none

/-- A single raw item (test fixture). -/
def c9item : RawItem :=
  { name := some "Burger", description := none, price := none,
    images := none, category := none, options := none }

/-- A store with a URL and one named category block holding one item
(test fixture). -/
def c9store : Store :=
  { mkSimpleStore (some "https://r1/") with
    itemLists := [{
      name := some "Mains",
      items := some [c9item],
      sortOrder := none }] }

/-- The draft-section rows `insertSections` creates on a healthy
tabular store for the category list `cats`, starting at position `pos`
with generated ids from `nid`: one row per block, in list order, named
by `cleanCategoryName`. -/
def sectionsFor (dmid : Nat) : List ItemList → Nat → Nat → List SectionRow
  | [], _, _ => []
  | c :: cs, pos, nid =>
    { id := nid, draftMenuId := dmid, position := pos, name := cleanCategoryName c.name } ::
      sectionsFor dmid cs (pos + 1) (nid + 1)

/-- A store with two named blocks in reverse `sort_order` (test fixture). -/
def c6storeA : Store :=
  { mkSimpleStore (some "u") with
    itemLists := [
      { name := some "B", items := some [], sortOrder := some 2 },
      { name := some "A", items := some [], sortOrder := some 1 }] }

/-- A store with no blocks but a legacy `menuCategories` list (test fixture). -/
def c6storeB : Store :=
  { mkSimpleStore (some "u") with
    menuCategories := some [{ name := some "Subs", items := some [], sortOrder := none }] }

/-! ## Theorems -/

/-- C5: price normalization — a structured `{amount}` object, a bare
number, and a currency string all normalize `12.99` to `1299` cents,
while absent (`undefined`/`null`) and unparseable prices normalize to
`null`, never zero. -/
theorem price_normalization_round_trip :
    itemPriceCents (some (.str "$12.99")) = some 1299 ∧
    itemPriceCents (some (.num 12.99)) = some 1299 ∧
    itemPriceCents (some (.obj (some 12.99) none)) = some 1299 ∧
    itemPriceCents (some (.str "free")) = none ∧
    itemPriceCents none = none ∧
    ∀ s, (stripPriceChars s = "" ∨ jsParseFloat (stripPriceChars s) = none) →
      itemPriceCents (some (.str s)) = none := by
  refine ⟨by decide, by decide, by decide, by decide, rfl, ?_⟩
  intro s h
  simp only [itemPriceCents, jsTruthyPrice, parsePriceToCents, jsStringOfPrice]
  rcases h with h | h
  · by_cases hs : s = ""
    · simp [hs]
    · simp [hs, h]
  · by_cases hs : s = ""
    · simp [hs]
    · by_cases hc : stripPriceChars s = ""
      · simp [hs, hc]
      · simp [hs, hc, h]

/-- Witness for C5: `"free"` is unparseable and normalizes to `null`. -/
theorem price_normalization_round_trip_witness :
    itemPriceCents (some (.str "free")) = none :=
  price_normalization_round_trip.2.2.2.2.2 "free" (by decide)

/-- C10: a webhook delivery whose event type is none of `SUCCEEDED`,
`FAILED`, `ABORTED`, `TIMED_OUT` is acknowledged with a 200 `ignored`
response and the world is returned unchanged — no dataset fetch, no
blob write, no tabular write. -/
theorem ignored_event_is_pure_ack (env : Env) (now : Nat) (sec : String)
    (payload : ApifyWebhookPayload) (w : World)
    (hsec : env.apifyWebhookSecret = some sec) (hne : sec ≠ "")
    (htok : jsTruthyS env.apifyToken = true)
    (hurl : jsTruthyS env.supabaseUrl = true)
    (hkey : jsTruthyS env.supabaseServiceRoleKey = true)
    (hev : payload.eventType ∉
      (["ACTOR.RUN.SUCCEEDED", "ACTOR.RUN.FAILED", "ACTOR.RUN.ABORTED",
        "ACTOR.RUN.TIMED_OUT"] : List String)) :
    handleApifyWebhook env now (some sec) payload w =
      (w, { status := 200, body := .ignored payload.eventType }) := by
  simp only [List.mem_cons, List.mem_singleton, not_or] at hev
  obtain ⟨h1, h2, h3, h4, -⟩ := hev
  unfold handleApifyWebhook
  rw [hsec]
  have hs : jsTruthyS (some sec) = true := by simp [jsTruthyS, hne]
  simp only [hs, htok, hurl, hkey]
  simp [h1, h2, h3, h4]

/-- Witness for C10 at a concrete environment and payload. -/
theorem ignored_event_is_pure_ack_witness :
    handleApifyWebhook
      { apifyWebhookSecret := some "s", apifyToken := some "t",
        supabaseUrl := some "u", supabaseServiceRoleKey := some "k",
        datasets := fun _ => [], dbFault := fun _ => none, rand := fun _ => [] }
      0 (some "s")
      { eventType := "ACTOR.RUN.CREATED", resource := none, eventData := none }
      { db := { imports := [], restaurants := [], sources := [], draftMenus := [],
                draftSections := [], draftItems := [], claims := [], nextId := 0,
                opCount := 0 },
        scrapeBlobs := [], fetchCount := 0, rngCount := 0 } =
      ({ db := { imports := [], restaurants := [], sources := [], draftMenus := [],
                 draftSections := [], draftItems := [], claims := [], nextId := 0,
                 opCount := 0 },
         scrapeBlobs := [], fetchCount := 0, rngCount := 0 },
       { status := 200, body := .ignored "ACTOR.RUN.CREATED" }) :=
  ignored_event_is_pure_ack _ 0 "s" _ _ rfl (by decide) rfl rfl rfl (by decide)

/-! ### Blob-store lookup lemmas -/

theorem find?_putKV_self [DecidableEq κ] (k : κ) (v : α) (l : List (κ × α)) :
    (putKV k v l).find? (fun e => e.1 = k) = some (k, v) := by
  rw [putKV, List.find?_append]
  have h1 : (l.filter (fun e => e.1 ≠ k)).find? (fun e => e.1 = k) = none := by
    rw [List.find?_eq_none]
    intro x hx
    have hk := List.of_mem_filter hx
    simp only [decide_not, Bool.not_eq_true] at hk ⊢
    simpa using hk
  rw [h1]
  simp [List.find?_cons]

theorem find?_putKV_ne [DecidableEq κ] {k q : κ} (h : q ≠ k) (v : α) (l : List (κ × α)) :
    (putKV k v l).find? (fun e => e.1 = q) = l.find? (fun e => e.1 = q) := by
  rw [putKV, List.find?_append]
  have h2 : ([(k, v)].find? (fun e : κ × α => e.1 = q)) = none := by
    simp [List.find?_cons, Ne.symm h]
  rw [h2]
  have h3 : (l.filter (fun e => e.1 ≠ k)).find? (fun e => e.1 = q) =
      l.find? (fun e => e.1 = q) := by
    induction l with
    | nil => rfl
    | cons a l ih =>
      rw [List.filter_cons]
      by_cases ha : a.1 = k
      · have haq : (decide (a.1 = q)) = false := by
          subst ha
          simp [Ne.symm h]
        rw [if_neg (by simp [ha]), ih, List.find?_cons, haq]
      · rw [if_pos (by simp [ha]), List.find?_cons, List.find?_cons]
        cases hq : (decide (a.1 = q)) with
        | true => rfl
        | false => exact ih
  rw [h3]
  cases l.find? (fun e => e.1 = q) <;> rfl

theorem countP_putKV_self [DecidableEq κ] (k : κ) (v : α) (l : List (κ × α)) :
    (putKV k v l).countP (fun e => e.1 = k) = 1 := by
  rw [putKV, List.countP_append]
  have h1 : (l.filter (fun e => e.1 ≠ k)).countP (fun e => e.1 = k) = 0 := by
    rw [List.countP_eq_zero]
    intro x hx
    have hk := List.of_mem_filter hx
    simp only [decide_not, Bool.not_eq_true] at hk ⊢
    simpa using hk
  rw [h1]
  simp [List.countP_cons]

/-! ### No-fault equations for the versioned publisher -/

theorem writeVersion_noFault (env : VEnv) (hF : noBlobFaults env)
    (brand store menu : String) (data : MenuDoc) (ty keyId : String) (t : Nat) (w : VWorld) :
    writeVersion env brand store menu data ty keyId t w =
      ({ w with
          opCount := w.opCount + 1 + 1 + 1,
          internal := putKV (VKey.manifest brand store menu)
            (VObj.manifest
              { current := t,
                versions := pushEntry ⟨t, ty, t, keyId, data.items.length⟩
                  (manifestVersionsAt w brand store menu) })
            (putKV (VKey.snap brand store menu t) (VObj.snapshot data) w.internal) },
       .ok t) := by
  have hne : VKey.manifest brand store menu ≠ VKey.snap brand store menu t := by simp
  have hF2 : ∀ n, env.blobFault n = false := hF
  unfold writeVersion vput vget putV
  simp only [hF2, Bool.false_eq_true, if_false]
  rw [find?_putKV_ne hne]
  unfold pushEntry manifestVersionsAt manifestAt objAt
  rcases h : (w.internal.find? (fun e => e.1 = VKey.manifest brand store menu)) with _ | p
  · simp [h]
  · rcases p with ⟨k, o⟩
    cases o <;> simp [h]

theorem appendAuditLog_noFault (env : VEnv) (hF : noBlobFaults env)
    (brand store menu ty : String) (vid : Nat) (keyId : String) (n t : Nat) (w : VWorld) :
    appendAuditLog env brand store menu ty vid keyId n t w =
      ({ w with
          opCount := w.opCount + 1 + 1,
          internal := putKV (VKey.auditLog brand store menu (t / 86400000))
            (VObj.log (auditLinesAt w brand store menu (t / 86400000) ++
              [⟨ty, vid, keyId, n, t⟩])) w.internal },
       .ok ()) := by
  have hF2 : ∀ n, env.blobFault n = false := hF
  unfold appendAuditLog vput vget putV
  simp only [hF2, Bool.false_eq_true, if_false]
  unfold auditLinesAt objAt
  rcases h : (w.internal.find? (fun e => e.1 = VKey.auditLog brand store menu (t / 86400000)))
    with _ | p
  · simp [h]
  · rcases p with ⟨k, o⟩
    cases o <;> simp [h]

theorem pput_noFault (env : VEnv) (hF : noBlobFaults env)
    (brand store menu : String) (doc : MenuDoc) (w : VWorld) :
    pput env brand store menu doc w =
      ({ w with
          opCount := w.opCount + 1,
          public := putKV (brand, store, menu) doc w.public }, .ok ()) := by
  have hF2 : ∀ n, env.blobFault n = false := hF
  unfold pput
  simp [hF2]

theorem handleMenuSave_noFault (env : VEnv) (hF : noBlobFaults env)
    (keyId brand store menu : String) (doc : MenuDoc) (t : Nat) (w : VWorld) :
    handleMenuSave env keyId brand store menu (some doc) t w =
      ({ w with
          opCount := w.opCount + 1 + 1 + 1 + 1 + 1 + 1,
          internal := putKV (VKey.auditLog brand store menu (t / 86400000))
            (VObj.log (auditLinesAt w brand store menu (t / 86400000) ++
              [⟨"edit", t, keyId, doc.items.length, t⟩]))
            (putKV (VKey.manifest brand store menu)
              (VObj.manifest
                { current := t,
                  versions := pushEntry (editEntry keyId (t, doc))
                    (manifestVersionsAt w brand store menu) })
              (putKV (VKey.snap brand store menu t) (VObj.snapshot doc) w.internal)),
          public := putKV (brand, store, menu) doc w.public },
       { status := 200,
         body := .saved t (env.r2PublicUrl ++ "/" ++ brand ++ "/" ++ store ++ "__" ++
           menu ++ ".json") }) := by
  have hne1 : VKey.auditLog brand store menu (t / 86400000) ≠
      VKey.manifest brand store menu := by simp
  have hne2 : VKey.auditLog brand store menu (t / 86400000) ≠
      VKey.snap brand store menu t := by simp
  unfold handleMenuSave
  dsimp only
  rw [writeVersion_noFault env hF]
  dsimp only
  rw [appendAuditLog_noFault env hF]
  dsimp only
  rw [pput_noFault env hF]
  dsimp only
  have haud : auditLinesAt
      { w with
        opCount := w.opCount + 1 + 1 + 1,
        internal := putKV (VKey.manifest brand store menu)
          (VObj.manifest
            { current := t,
              versions := pushEntry ⟨t, "edit", t, keyId, doc.items.length⟩
                (manifestVersionsAt w brand store menu) })
          (putKV (VKey.snap brand store menu t) (VObj.snapshot doc) w.internal) }
      brand store menu (t / 86400000) = auditLinesAt w brand store menu (t / 86400000) := by
    unfold auditLinesAt objAt
    rw [find?_putKV_ne hne1, find?_putKV_ne hne2]
  rw [haud]
  rfl

theorem pushEntry_expected (keyId : String) (p : Nat × MenuDoc) (done : List (Nat × MenuDoc)) :
    pushEntry (editEntry keyId p) (expectedVersions keyId done) =
      expectedVersions keyId (done ++ [p]) := by
  unfold pushEntry expectedVersions
  rw [List.reverse_append]
  simp only [List.reverse_singleton, List.singleton_append, List.map_cons]
  set X := (done.reverse).map (editEntry keyId) with hX
  by_cases h : X.length ≤ 99
  · rw [List.take_of_length_le (le_trans h (by omega))]
    rw [if_neg (by simp only [List.length_cons]; omega)]
    rw [List.take_of_length_le (by simp only [List.length_cons]; omega)]
  · have h100 : (X.take 100).length = 100 := by
      rw [List.length_take]
      omega
    rw [if_pos (by rw [List.length_cons, h100]; omega)]
    show (editEntry keyId p :: X.take 100).take (99 + 1) = (editEntry keyId p :: X).take (99 + 1)
    rw [List.take_succ_cons, List.take_succ_cons, List.take_take]
    norm_num

theorem iterateSaves_spec (env : VEnv) (hF : noBlobFaults env)
    (keyId brand store menu : String) :
    ∀ (writes done : List (Nat × MenuDoc)) (w : VWorld),
      manifestVersionsAt w brand store menu = expectedVersions keyId done →
      (∀ lastp, done.getLast? = some lastp →
        manifestAt w brand store menu =
          some (.manifest { current := lastp.1, versions := expectedVersions keyId done }) ∧
        liveDoc w brand store menu = some lastp.2) →
      (iterateSaves env keyId brand store menu writes w).2 = writes.map (fun _ => 200) ∧
      manifestVersionsAt (iterateSaves env keyId brand store menu writes w).1 brand store menu =
        expectedVersions keyId (done ++ writes) ∧
      (∀ lastp, (done ++ writes).getLast? = some lastp →
        manifestAt (iterateSaves env keyId brand store menu writes w).1 brand store menu =
          some (.manifest
            { current := lastp.1,
              versions := expectedVersions keyId (done ++ writes) }) ∧
        liveDoc (iterateSaves env keyId brand store menu writes w).1 brand store menu =
          some lastp.2) := by
  intro writes
  induction writes with
  | nil =>
    intro done w hv hl
    refine ⟨rfl, ?_, ?_⟩
    · simp only [iterateSaves, List.append_nil]
      exact hv
    · simp only [iterateSaves, List.append_nil]
      exact hl
  | cons td rest ih =>
    obtain ⟨t, d⟩ := td
    intro done w hv hl
    have hne_am : VKey.manifest brand store menu ≠
        VKey.auditLog brand store menu (t / 86400000) := by simp
    rw [show iterateSaves env keyId brand store menu ((t, d) :: rest) w =
      (let r := handleMenuSave env keyId brand store menu (some d) t w
       let it := iterateSaves env keyId brand store menu rest r.1
       (it.1, r.2.status :: it.2)) from rfl]
    rw [handleMenuSave_noFault env hF]
    dsimp only
    set w' : VWorld :=
      { w with
        opCount := w.opCount + 1 + 1 + 1 + 1 + 1 + 1,
        internal := putKV (VKey.auditLog brand store menu (t / 86400000))
          (VObj.log (auditLinesAt w brand store menu (t / 86400000) ++
            [⟨"edit", t, keyId, d.items.length, t⟩]))
          (putKV (VKey.manifest brand store menu)
            (VObj.manifest
              { current := t,
                versions := pushEntry (editEntry keyId (t, d))
                  (manifestVersionsAt w brand store menu) })
            (putKV (VKey.snap brand store menu t) (VObj.snapshot d) w.internal)),
        public := putKV (brand, store, menu) d w.public } with hw'
    have hma' : manifestAt w' brand store menu =
        some (.manifest
          { current := t,
            versions := expectedVersions keyId (done ++ [(t, d)]) }) := by
      unfold manifestAt objAt
      rw [hw']
      rw [find?_putKV_ne hne_am, find?_putKV_self]
      simp only [Option.map_some']
      rw [hv, pushEntry_expected]
    have hmv' : manifestVersionsAt w' brand store menu =
        expectedVersions keyId (done ++ [(t, d)]) := by
      unfold manifestVersionsAt
      rw [hma']
    have hld' : liveDoc w' brand store menu = some d := by
      unfold liveDoc
      rw [hw']
      rw [find?_putKV_self]
      rfl
    have hl' : ∀ lastp, (done ++ [(t, d)]).getLast? = some lastp →
        manifestAt w' brand store menu =
          some (.manifest
            { current := lastp.1,
              versions := expectedVersions keyId (done ++ [(t, d)]) }) ∧
        liveDoc w' brand store menu = some lastp.2 := by
      intro lastp hlast
      rw [List.getLast?_append] at hlast
      simp only [List.getLast?_singleton] at hlast
      rw [show (some (t, d)).or done.getLast? = some (t, d) from rfl] at hlast
      cases hlast
      exact ⟨hma', hld'⟩
    obtain ⟨h1, h2, h3⟩ := ih (done ++ [(t, d)]) w' hmv' hl'
    have happ : (done ++ [(t, d)]) ++ rest = done ++ ((t, d) :: rest) := by
      rw [List.append_assoc]
      rfl
    rw [happ] at h2 h3
    refine ⟨?_, h2, h3⟩
    simp only [List.map_cons, h1]

/-- C2: version monotonicity — starting from a key whose manifest is
absent or unparseable, N sequential saves at strictly increasing
instants all succeed (status 200), and leave a manifest whose
`versions` list has `min N 100` entries in strictly descending
timestamp order, whose `current` equals the newest entry's id, and the
live object equals the most recently saved document. -/
theorem version_monotonicity (env : VEnv) (keyId brand store menu : String)
    (writes : List (Nat × MenuDoc)) (w0 : VWorld)
    (hF : noBlobFaults env)
    (hInit : manifestAt w0 brand store menu = none ∨
             manifestAt w0 brand store menu = some .corrupt)
    (hMono : (writes.map Prod.fst).Pairwise (· < ·))
    (hne : writes ≠ []) :
    (iterateSaves env keyId brand store menu writes w0).2 = writes.map (fun _ => 200) ∧
    ∃ mf, manifestAt (iterateSaves env keyId brand store menu writes w0).1 brand store menu =
        some (.manifest mf) ∧
      mf.versions.length = min writes.length 100 ∧
      mf.versions.Pairwise (fun a b => b.timestamp < a.timestamp) ∧
      mf.versions.head?.map VersionEntry.id = some mf.current ∧
      liveDoc (iterateSaves env keyId brand store menu writes w0).1 brand store menu =
        (writes.getLast?).map Prod.snd := by
  have hv0 : manifestVersionsAt w0 brand store menu = expectedVersions keyId [] := by
    unfold manifestVersionsAt expectedVersions
    rcases hInit with h | h <;> rw [h] <;> rfl
  have hl0 : ∀ lastp, ([] : List (Nat × MenuDoc)).getLast? = some lastp →
      manifestAt w0 brand store menu =
        some (.manifest { current := lastp.1, versions := expectedVersions keyId [] }) ∧
      liveDoc w0 brand store menu = some lastp.2 := by
    intro lastp h
    cases h
  obtain ⟨h1, h2, h3⟩ :=
    iterateSaves_spec env hF keyId brand store menu writes [] w0 hv0 hl0
  simp only [List.nil_append] at h2 h3
  obtain ⟨lp, hlp⟩ : ∃ lp, writes.getLast? = some lp := by
    cases hw : writes.getLast? with
    | none => exact absurd (List.getLast?_eq_none_iff.mp hw) hne
    | some a => exact ⟨a, rfl⟩
  obtain ⟨hma, hld⟩ := h3 lp hlp
  refine ⟨h1, ⟨{ current := lp.1, versions := expectedVersions keyId writes }, hma, ?_, ?_, ?_, ?_⟩⟩
  · unfold expectedVersions
    rw [List.length_take, List.length_map, List.length_reverse, Nat.min_comm]
  · unfold expectedVersions
    apply List.Pairwise.sublist (List.take_sublist _ _)
    rw [List.pairwise_map, List.pairwise_reverse]
    have := List.pairwise_map.mp hMono
    exact this.imp (fun h => h)
  · unfold expectedVersions
    obtain ⟨tl, htl⟩ : ∃ tl, writes.reverse = lp :: tl := by
      have hh : writes.reverse.head? = some lp := by
        rw [List.head?_reverse]
        exact hlp
      cases hw : writes.reverse with
      | nil => rw [hw] at hh; cases hh
      | cons a tl =>
        rw [hw] at hh
        simp only [List.head?_cons, Option.some.injEq] at hh
        exact ⟨tl, by rw [hh]⟩
    rw [htl]
    rfl
  · rw [hlp]
    exact hld

/-- Witness for C2: two saves at instants 1 and 2 on a fresh key. -/
theorem version_monotonicity_witness :
    (iterateSaves ⟨fun _ => false, "https://pub"⟩ "key" "b" "s" "m"
        [(1, ⟨["a"]⟩), (2, ⟨["b"]⟩)] ⟨[], [], 0⟩).2 = [200, 200] ∧
    ∃ mf, manifestAt (iterateSaves ⟨fun _ => false, "https://pub"⟩ "key" "b" "s" "m"
        [(1, ⟨["a"]⟩), (2, ⟨["b"]⟩)] ⟨[], [], 0⟩).1 "b" "s" "m" = some (.manifest mf) ∧
      mf.versions.length = min 2 100 ∧
      mf.versions.Pairwise (fun a b => b.timestamp < a.timestamp) ∧
      mf.versions.head?.map VersionEntry.id = some mf.current ∧
      liveDoc (iterateSaves ⟨fun _ => false, "https://pub"⟩ "key" "b" "s" "m"
        [(1, ⟨["a"]⟩), (2, ⟨["b"]⟩)] ⟨[], [], 0⟩).1 "b" "s" "m" = some ⟨["b"]⟩ :=
  version_monotonicity ⟨fun _ => false, "https://pub"⟩ "key" "b" "s" "m"
    [(1, ⟨["a"]⟩), (2, ⟨["b"]⟩)] ⟨[], [], 0⟩ (fun _ => rfl) (Or.inl rfl)
    (by decide) (by decide)

/-! ### Per-call equations for the blob operations -/

theorem vput_ok (env : VEnv) (k : VKey) (v : VObj) (w : VWorld)
    (h : env.blobFault w.opCount = false) :
    vput env k v w =
      ({ w with opCount := w.opCount + 1, internal := putKV k v w.internal }, .ok ()) := by
  unfold vput putV
  simp [h]

theorem vput_fault (env : VEnv) (k : VKey) (v : VObj) (w : VWorld)
    (h : env.blobFault w.opCount = true) :
    vput env k v w = ({ w with opCount := w.opCount + 1 }, .error "R2 put failed") := by
  unfold vput
  simp [h]

theorem vget_ok (env : VEnv) (k : VKey) (w : VWorld)
    (h : env.blobFault w.opCount = false) :
    vget env k w = ({ w with opCount := w.opCount + 1 }, .ok (objAt w k)) := by
  unfold vget objAt
  simp [h]

theorem vget_fault (env : VEnv) (k : VKey) (w : VWorld)
    (h : env.blobFault w.opCount = true) :
    vget env k w = ({ w with opCount := w.opCount + 1 }, .error "R2 get failed") := by
  unfold vget
  simp [h]

theorem pput_ok (env : VEnv) (brand store menu : String) (doc : MenuDoc) (w : VWorld)
    (h : env.blobFault w.opCount = false) :
    pput env brand store menu doc w =
      ({ w with
          opCount := w.opCount + 1,
          public := putKV (brand, store, menu) doc w.public }, .ok ()) := by
  unfold pput
  simp [h]

theorem pput_fault (env : VEnv) (brand store menu : String) (doc : MenuDoc) (w : VWorld)
    (h : env.blobFault w.opCount = true) :
    pput env brand store menu doc w =
      ({ w with opCount := w.opCount + 1 }, .error "R2 put failed") := by
  unfold pput
  simp [h]

theorem menuSave_ordering (env : VEnv) (keyId brand store menu : String)
    (doc : MenuDoc) (now : Nat) (w : VWorld) :
    (let r := handleMenuSave env keyId brand store menu (some doc) now w
     (r.2.status = 200 ∧
       objAt r.1 (VKey.snap brand store menu now) = some (.snapshot doc) ∧
       (∃ mf, manifestAt r.1 brand store menu = some (.manifest mf) ∧
         mf.current = now ∧
         mf.versions.head? = some ⟨now, "edit", now, keyId, doc.items.length⟩) ∧
       (∃ lines, objAt r.1 (VKey.auditLog brand store menu (now / 86400000)) =
           some (.log lines) ∧
         lines.getLast? = some ⟨"edit", now, keyId, doc.items.length, now⟩) ∧
       liveDoc r.1 brand store menu = some doc) ∨
     (r.2.status = 500 ∧ liveDoc r.1 brand store menu = liveDoc w brand store menu)) := by
  dsimp only
  unfold handleMenuSave writeVersion appendAuditLog
  dsimp only
  cases h0 : env.blobFault w.opCount with
  | true =>
    rw [vput_fault env _ _ _ h0]
    dsimp only
    right
    exact ⟨rfl, rfl⟩
  | false =>
    rw [vput_ok env _ _ _ h0]
    dsimp only
    cases h1 : env.blobFault (w.opCount + 1) with
    | true =>
      rw [vget_fault env _ _ h1]
      dsimp only
      right
      exact ⟨rfl, rfl⟩
    | false =>
      rw [vget_ok env _ _ h1]
      dsimp only
      cases h2 : env.blobFault (w.opCount + 1 + 1) with
      | true =>
        rw [vput_fault env _ _ _ h2]
        dsimp only
        right
        exact ⟨rfl, rfl⟩
      | false =>
        rw [vput_ok env _ _ _ h2]
        dsimp only
        cases h3 : env.blobFault (w.opCount + 1 + 1 + 1) with
        | true =>
          rw [vget_fault env _ _ h3]
          dsimp only
          right
          exact ⟨rfl, rfl⟩
        | false =>
          rw [vget_ok env _ _ h3]
          dsimp only
          cases h4 : env.blobFault (w.opCount + 1 + 1 + 1 + 1) with
          | true =>
            rw [vput_fault env _ _ _ h4]
            dsimp only
            right
            exact ⟨rfl, rfl⟩
          | false =>
            rw [vput_ok env _ _ _ h4]
            dsimp only
            cases h5 : env.blobFault (w.opCount + 1 + 1 + 1 + 1 + 1) with
            | true =>
              rw [pput_fault env _ _ _ _ _ h5]
              dsimp only
              right
              exact ⟨rfl, rfl⟩
            | false =>
              rw [pput_ok env _ _ _ _ _ h5]
              dsimp only
              left
              have hsa : VKey.snap brand store menu now ≠
                  VKey.auditLog brand store menu (now / 86400000) := by simp
              have hsm : VKey.snap brand store menu now ≠
                  VKey.manifest brand store menu := by simp
              have hma : VKey.manifest brand store menu ≠
                  VKey.auditLog brand store menu (now / 86400000) := by simp
              refine ⟨rfl, ?_, ?_, ?_, ?_⟩
              · unfold objAt
                rw [find?_putKV_ne hsa, find?_putKV_ne hsm, find?_putKV_self]
                rfl
              · unfold manifestAt objAt
                rw [find?_putKV_ne hma, find?_putKV_self]
                refine ⟨_, rfl, rfl, ?_⟩
                dsimp only
                split
                · rw [show (100 : Nat) = 99 + 1 from rfl, List.take_succ_cons]
                  rfl
                · rfl
              · unfold objAt
                rw [find?_putKV_self]
                refine ⟨_, rfl, ?_⟩
                rw [List.getLast?_append]
                rfl
              · unfold liveDoc
                rw [find?_putKV_self]
                rfl

theorem menuUpload_ordering (env : VEnv) (keyId brand store menu : String)
    (doc : MenuDoc) (now : Nat) (w : VWorld) :
    (let r := handleMenuUpload env keyId brand store menu (some doc) now w
     (r.2.status = 200 ∧
       objAt r.1 (VKey.snap brand store menu now) = some (.snapshot doc) ∧
       (∃ mf, manifestAt r.1 brand store menu = some (.manifest mf) ∧
         mf.current = now ∧
         mf.versions.head? = some ⟨now, "upload", now, keyId, doc.items.length⟩) ∧
       (∃ lines, objAt r.1 (VKey.auditLog brand store menu (now / 86400000)) =
           some (.log lines) ∧
         lines.getLast? = some ⟨"upload", now, keyId, doc.items.length, now⟩) ∧
       liveDoc r.1 brand store menu = some doc) ∨
     (r.2.status = 500 ∧ liveDoc r.1 brand store menu = liveDoc w brand store menu)) := by
  dsimp only
  unfold handleMenuUpload writeVersion appendAuditLog
  dsimp only
  cases h0 : env.blobFault w.opCount with
  | true =>
    rw [vput_fault env _ _ _ h0]
    dsimp only
    right
    exact ⟨rfl, rfl⟩
  | false =>
    rw [vput_ok env _ _ _ h0]
    dsimp only
    cases h1 : env.blobFault (w.opCount + 1) with
    | true =>
      rw [vget_fault env _ _ h1]
      dsimp only
      right
      exact ⟨rfl, rfl⟩
    | false =>
      rw [vget_ok env _ _ h1]
      dsimp only
      cases h2 : env.blobFault (w.opCount + 1 + 1) with
      | true =>
        rw [vput_fault env _ _ _ h2]
        dsimp only
        right
        exact ⟨rfl, rfl⟩
      | false =>
        rw [vput_ok env _ _ _ h2]
        dsimp only
        cases h3 : env.blobFault (w.opCount + 1 + 1 + 1) with
        | true =>
          rw [vget_fault env _ _ h3]
          dsimp only
          right
          exact ⟨rfl, rfl⟩
        | false =>
          rw [vget_ok env _ _ h3]
          dsimp only
          cases h4 : env.blobFault (w.opCount + 1 + 1 + 1 + 1) with
          | true =>
            rw [vput_fault env _ _ _ h4]
            dsimp only
            right
            exact ⟨rfl, rfl⟩
          | false =>
            rw [vput_ok env _ _ _ h4]
            dsimp only
            cases h5 : env.blobFault (w.opCount + 1 + 1 + 1 + 1 + 1) with
            | true =>
              rw [pput_fault env _ _ _ _ _ h5]
              dsimp only
              right
              exact ⟨rfl, rfl⟩
            | false =>
              rw [pput_ok env _ _ _ _ _ h5]
              dsimp only
              left
              have hsa : VKey.snap brand store menu now ≠
                  VKey.auditLog brand store menu (now / 86400000) := by simp
              have hsm : VKey.snap brand store menu now ≠
                  VKey.manifest brand store menu := by simp
              have hma : VKey.manifest brand store menu ≠
                  VKey.auditLog brand store menu (now / 86400000) := by simp
              refine ⟨rfl, ?_, ?_, ?_, ?_⟩
              · unfold objAt
                rw [find?_putKV_ne hsa, find?_putKV_ne hsm, find?_putKV_self]
                rfl
              · unfold manifestAt objAt
                rw [find?_putKV_ne hma, find?_putKV_self]
                refine ⟨_, rfl, rfl, ?_⟩
                dsimp only
                split
                · rw [show (100 : Nat) = 99 + 1 from rfl, List.take_succ_cons]
                  rfl
                · rfl
              · unfold objAt
                rw [find?_putKV_self]
                refine ⟨_, rfl, ?_⟩
                rw [List.getLast?_append]
                rfl
              · unfold liveDoc
                rw [find?_putKV_self]
                rfl

/-- C7: publish ordering — for every versioned menu write (save or
upload) under an arbitrary blob-fault pattern, either the write
succeeds (HTTP 200) and the snapshot, manifest entry and audit line are
all in place with the live object equal to the new document, or the
write is surfaced as a failure (HTTP 500) and the live object is
untouched in that invocation.  The live copy is thus never ahead of its
version history. -/
theorem publish_ordering (env : VEnv) (keyId brand store menu : String)
    (doc : MenuDoc) (now : Nat) (w : VWorld) :
    ((let r := handleMenuSave env keyId brand store menu (some doc) now w
      (r.2.status = 200 ∧
        objAt r.1 (VKey.snap brand store menu now) = some (.snapshot doc) ∧
        (∃ mf, manifestAt r.1 brand store menu = some (.manifest mf) ∧
          mf.current = now ∧
          mf.versions.head? = some ⟨now, "edit", now, keyId, doc.items.length⟩) ∧
        (∃ lines, objAt r.1 (VKey.auditLog brand store menu (now / 86400000)) =
            some (.log lines) ∧
          lines.getLast? = some ⟨"edit", now, keyId, doc.items.length, now⟩) ∧
        liveDoc r.1 brand store menu = some doc) ∨
      (r.2.status = 500 ∧ liveDoc r.1 brand store menu = liveDoc w brand store menu)) ∧
     (let r := handleMenuUpload env keyId brand store menu (some doc) now w
      (r.2.status = 200 ∧
        objAt r.1 (VKey.snap brand store menu now) = some (.snapshot doc) ∧
        (∃ mf, manifestAt r.1 brand store menu = some (.manifest mf) ∧
          mf.current = now ∧
          mf.versions.head? = some ⟨now, "upload", now, keyId, doc.items.length⟩) ∧
        (∃ lines, objAt r.1 (VKey.auditLog brand store menu (now / 86400000)) =
            some (.log lines) ∧
          lines.getLast? = some ⟨"upload", now, keyId, doc.items.length, now⟩) ∧
        liveDoc r.1 brand store menu = some doc) ∨
      (r.2.status = 500 ∧ liveDoc r.1 brand store menu = liveDoc w brand store menu))) :=
  ⟨menuSave_ordering env keyId brand store menu doc now w,
   menuUpload_ordering env keyId brand store menu doc now w⟩

/-! ### No-fault equations for the tabular-store operations -/

theorem dbTick_nf (env : Env) (hF : noDbFaults env) (w : World) :
    dbTick env w = ({ w with db := { w.db with opCount := w.db.opCount + 1 } }, none) := by
  have hF2 : ∀ n, env.dbFault n = none := hF
  unfold dbTick
  rw [hF2]

theorem selectImportByHash_nf (env : Env) (hF : noDbFaults env)
    (h : Option (List Store)) (w : World) :
    selectImportByHash env h w =
      ({ w with db := { w.db with opCount := w.db.opCount + 1 } },
       w.db.imports.find? (fun r => decide (r.payloadHash = h))) := by
  unfold selectImportByHash
  rw [dbTick_nf env hF]
  rfl

theorem insertImportOp_nf (env : Env) (hF : noDbFaults env) (row : ImportRow) (w : World) :
    insertImportOp env row w =
      { w with db := { w.db with
          opCount := w.db.opCount + 1,
          imports := w.db.imports ++ [row] } } := by
  unfold insertImportOp
  rw [dbTick_nf env hF]
  rfl

theorem updateImportsByRunId_nf (env : Env) (hF : noDbFaults env)
    (runId status : String) (em : Option String) (w : World) :
    updateImportsByRunId env runId status em w =
      { w with db := { w.db with
          opCount := w.db.opCount + 1,
          imports := w.db.imports.map (fun r =>
            if r.runId = runId then { r with status := status, errorMessage := em } else r) } } := by
  unfold updateImportsByRunId
  rw [dbTick_nf env hF]
  rfl

theorem selectSourceByUrl_nf (env : Env) (hF : noDbFaults env) (u : String) (w : World) :
    selectSourceByUrl env u w =
      ({ w with db := { w.db with opCount := w.db.opCount + 1 } },
       w.db.sources.find? (fun r => decide (r.sourceUrl = u))) := by
  unfold selectSourceByUrl
  rw [dbTick_nf env hF]
  rfl

theorem insertRestaurantOp_nf (env : Env) (hF : noDbFaults env)
    (name : String) (a1 ci st zi ph web : Option String) (w : World) :
    insertRestaurantOp env name a1 ci st zi ph web w =
      ({ w with db := { w.db with
          opCount := w.db.opCount + 1,
          restaurants := w.db.restaurants ++
            [{ id := w.db.nextId, name := name, address1 := a1, city := ci,
               state := st, zip := zi, phone := ph, website := web }],
          nextId := w.db.nextId + 1 } }, .ok w.db.nextId) := by
  unfold insertRestaurantOp
  rw [dbTick_nf env hF]

theorem insertSourceOp_nf (env : Env) (hF : noDbFaults env) (row : SourceRow) (w : World) :
    insertSourceOp env row w =
      { w with db := { w.db with
          opCount := w.db.opCount + 1,
          sources := w.db.sources ++ [row] } } := by
  unfold insertSourceOp
  rw [dbTick_nf env hF]
  rfl

theorem updateSourcesLastSeen_nf (env : Env) (hF : noDbFaults env)
    (u : String) (now : Nat) (w : World) :
    updateSourcesLastSeen env u now w =
      { w with db := { w.db with
          opCount := w.db.opCount + 1,
          sources := w.db.sources.map (fun r =>
            if r.sourceUrl = u then { r with lastSeenAt := now } else r) } } := by
  unfold updateSourcesLastSeen
  rw [dbTick_nf env hF]
  rfl

theorem insertDraftMenuOp_nf (env : Env) (hF : noDbFaults env)
    (rid : Nat) (u : String) (w : World) :
    insertDraftMenuOp env rid u w =
      ({ w with db := { w.db with
          opCount := w.db.opCount + 1,
          draftMenus := w.db.draftMenus ++
            [{ id := w.db.nextId, restaurantId := rid, source := "doordash",
               sourceUrl := u, status := "unclaimed" }],
          nextId := w.db.nextId + 1 } }, .ok w.db.nextId) := by
  unfold insertDraftMenuOp
  rw [dbTick_nf env hF]

theorem insertSectionOp_nf (env : Env) (hF : noDbFaults env)
    (dmid pos : Nat) (name : String) (w : World) :
    insertSectionOp env dmid pos name w =
      ({ w with db := { w.db with
          opCount := w.db.opCount + 1,
          draftSections := w.db.draftSections ++
            [{ id := w.db.nextId, draftMenuId := dmid, position := pos, name := name }],
          nextId := w.db.nextId + 1 } }, .ok w.db.nextId) := by
  unfold insertSectionOp
  rw [dbTick_nf env hF]

theorem insertItemOp_nf (env : Env) (hF : noDbFaults env) (row : ItemRow) (w : World) :
    insertItemOp env row w =
      { w with db := { w.db with
          opCount := w.db.opCount + 1,
          draftItems := w.db.draftItems ++ [row] } } := by
  unfold insertItemOp
  rw [dbTick_nf env hF]
  rfl

theorem selectClaimOp_nf (env : Env) (hF : noDbFaults env) (rid : Nat) (w : World) :
    selectClaimOp env rid w =
      ({ w with db := { w.db with opCount := w.db.opCount + 1 } },
       w.db.claims.find? (fun r => decide (r.restaurantId = rid))) := by
  unfold selectClaimOp
  rw [dbTick_nf env hF]
  rfl

theorem insertClaimOp_nf (env : Env) (hF : noDbFaults env) (row : ClaimRow) (w : World) :
    insertClaimOp env row w =
      { w with db := { w.db with
          opCount := w.db.opCount + 1,
          claims := w.db.claims ++ [row] } } := by
  unfold insertClaimOp
  rw [dbTick_nf env hF]
  rfl

/-! ### Effect-shape lemmas (any fault pattern): which state fields an
operation can touch -/

theorem insertItemOp_effect (env : Env) (row : ItemRow) (w : World) :
    ∃ n d, insertItemOp env row w =
      { w with db := { w.db with opCount := n, draftItems := d } } := by
  unfold insertItemOp dbTick
  dsimp only
  split
  · exact ⟨_, _, rfl⟩
  · exact ⟨_, _, rfl⟩

theorem insertItems_effect (env : Env) (sid : Nat) :
    ∀ (items : List RawItem) (pos : Nat) (w : World),
    ∃ n d, insertItems env sid items pos w =
      { w with db := { w.db with opCount := n, draftItems := d } } := by
  intro items
  induction items with
  | nil => exact fun pos w => ⟨w.db.opCount, w.db.draftItems, rfl⟩
  | cons item rest ih =>
    intro pos w
    unfold insertItems
    dsimp only
    obtain ⟨n1, d1, h1⟩ := insertItemOp_effect env
      { draftSectionId := sid, position := pos,
        name := stripLeadingBang (jsOrDefaultS item.name "Unknown Item"),
        description := jsOrNullS item.description,
        priceCents := itemPriceCents item.price,
        imageUrl := jsOrNullS ((item.images.bind List.head?).bind RawImage.url),
        rawOriginalPrice := item.price,
        rawOptions := item.options } w
    rw [h1]
    obtain ⟨n2, d2, h2⟩ := ih (pos + 1)
      { w with db := { w.db with opCount := n1, draftItems := d1 } }
    rw [h2]
    exact ⟨_, _, rfl⟩

theorem insertSectionOp_effect (env : Env) (dmid pos : Nat) (nm : String) (w : World) :
    ∃ n i sec r, insertSectionOp env dmid pos nm w =
      ({ w with db := { w.db with opCount := n, nextId := i, draftSections := sec } }, r) := by
  unfold insertSectionOp dbTick
  dsimp only
  rcases env.dbFault w.db.opCount with _ | e
  · exact ⟨_, _, _, _, rfl⟩
  · exact ⟨_, _, _, _, rfl⟩

theorem insertSections_effect (env : Env) (dmid : Nat) :
    ∀ (cats : List ItemList) (pos : Nat) (w : World),
    ∃ n i sec itm, insertSections env dmid cats pos w =
      { w with db := { w.db with
          opCount := n, nextId := i, draftSections := sec, draftItems := itm } } := by
  intro cats
  induction cats with
  | nil => exact fun pos w => ⟨w.db.opCount, w.db.nextId, w.db.draftSections, w.db.draftItems, rfl⟩
  | cons cat rest ih =>
    intro pos w
    unfold insertSections
    dsimp only
    obtain ⟨n1, i1, sec1, r1, h1⟩ := insertSectionOp_effect env dmid pos (cleanCategoryName cat.name) w
    rw [h1]
    cases r1 with
    | error e =>
      dsimp only
      obtain ⟨n2, i2, sec2, itm2, h2⟩ := ih (pos + 1)
        { w with db := { w.db with opCount := n1, nextId := i1, draftSections := sec1 } }
      rw [h2]
      exact ⟨_, _, _, _, rfl⟩
    | ok sid =>
      dsimp only
      obtain ⟨n15, d15, h15⟩ := insertItems_effect env sid (cat.items.getD []) 0
        { w with db := { w.db with opCount := n1, nextId := i1, draftSections := sec1 } }
      rw [h15]
      obtain ⟨n2, i2, sec2, itm2, h2⟩ := ih (pos + 1)
        { w with db := { w.db with
            opCount := n15, nextId := i1, draftSections := sec1, draftItems := d15 } }
      rw [h2]
      exact ⟨_, _, _, _, rfl⟩

theorem selectClaimOp_effect (env : Env) (rid : Nat) (w : World) :
    ∃ n r, selectClaimOp env rid w = ({ w with db := { w.db with opCount := n } }, r) := by
  unfold selectClaimOp dbTick
  dsimp only
  exact ⟨_, _, rfl⟩

theorem insertClaimOp_effect (env : Env) (row : ClaimRow) (w : World) :
    ∃ n cl, insertClaimOp env row w =
      { w with db := { w.db with opCount := n, claims := cl } } := by
  unfold insertClaimOp dbTick
  dsimp only
  split
  · exact ⟨_, _, rfl⟩
  · exact ⟨_, _, rfl⟩

theorem maybeIssueClaim_effect (env : Env) (now rid : Nat) (created : Bool) (w : World) :
    ∃ n rng cl b, maybeIssueClaim env now rid created w =
      ({ w with db := { w.db with opCount := n, claims := cl }, rngCount := rng }, b) := by
  unfold maybeIssueClaim
  cases created with
  | false => exact ⟨_, _, _, _, rfl⟩
  | true =>
    dsimp only
    obtain ⟨n1, r1, hs⟩ := selectClaimOp_effect env rid w
    rw [hs]
    cases r1 with
    | none =>
      dsimp only
      obtain ⟨n2, cl2, hc⟩ := insertClaimOp_effect env
        { restaurantId := rid, codeHash := sha256 (generateClaimCode (env.rand w.rngCount)),
          expiresAt := now + 14 * 24 * 60 * 60 * 1000, claimedAt := none }
        { w with db := { w.db with opCount := n1 }, rngCount := w.rngCount + 1 }
      rw [hc]
      exact ⟨_, _, _, _, rfl⟩
    | some row => exact ⟨_, _, _, _, rfl⟩

/-! ### Case analysis of `normalizeAndStoreStore` under a reliable store -/

theorem normalize_noId (env : Env) (now : Nat) (st : Store) (w : World)
    (h : resolveSourceUrl st = none) :
    normalizeAndStoreStore env now st w =
      (w, .error "Store has no URL and no restaurant ID") := by
  unfold normalizeAndStoreStore
  rw [h]

theorem findOrCreateRestaurant_existing (env : Env) (hF : noDbFaults env)
    (now : Nat) (st : Store) (u : String) (w : World) (row : SourceRow)
    (hfind : w.db.sources.find? (fun r => decide (r.sourceUrl = u)) = some row) :
    findOrCreateRestaurant env now st u w =
      ({ w with db := { w.db with opCount := w.db.opCount + 1 } },
       .ok (row.restaurantId, false)) := by
  unfold findOrCreateRestaurant
  rw [selectSourceByUrl_nf env hF]
  dsimp only
  rw [hfind]

theorem findOrCreateRestaurant_new (env : Env) (hF : noDbFaults env)
    (now : Nat) (st : Store) (u : String) (w : World)
    (hfind : w.db.sources.find? (fun r => decide (r.sourceUrl = u)) = none) :
    findOrCreateRestaurant env now st u w =
      ({ w with db := { w.db with
          opCount := w.db.opCount + 1 + 1 + 1,
          restaurants := w.db.restaurants ++ [restaurantRowOf st u w.db.nextId],
          sources := w.db.sources ++ [sourceRowOf st u w.db.nextId now],
          nextId := w.db.nextId + 1 } },
       .ok (w.db.nextId, true)) := by
  unfold findOrCreateRestaurant
  rw [selectSourceByUrl_nf env hF]
  dsimp only
  rw [hfind]
  dsimp only
  rw [insertRestaurantOp_nf env hF]
  dsimp only
  rw [insertSourceOp_nf env hF]
  rfl

theorem normalize_existing (env : Env) (hF : noDbFaults env) (now : Nat) (st : Store)
    (u : String) (w : World) (row : SourceRow)
    (hu : resolveSourceUrl st = some u)
    (hfind : w.db.sources.find? (fun r => decide (r.sourceUrl = u)) = some row) :
    ∃ n i2 sec itm,
      normalizeAndStoreStore env now st w =
        ({ w with db := { w.db with
            opCount := n,
            sources := w.db.sources.map (fun r =>
              if r.sourceUrl = u then { r with lastSeenAt := now } else r),
            draftMenus := w.db.draftMenus ++
              [{ id := w.db.nextId, restaurantId := row.restaurantId, source := "doordash",
                 sourceUrl := u, status := "unclaimed" }],
            draftSections := sec, draftItems := itm,
            nextId := i2 } },
         .ok ⟨false, false⟩) := by
  unfold normalizeAndStoreStore
  rw [hu]
  dsimp only
  rw [findOrCreateRestaurant_existing env hF now st u w row hfind]
  dsimp only
  simp only [Bool.false_eq_true, if_false]
  rw [updateSourcesLastSeen_nf env hF]
  rw [insertDraftMenuOp_nf env hF]
  dsimp only
  obtain ⟨n2, i2, sec2, itm2, hsec⟩ := insertSections_effect env w.db.nextId
    (collectCategories st) 0 _
  rw [hsec]
  exact ⟨_, _, _, _, rfl⟩

theorem normalize_new (env : Env) (hF : noDbFaults env) (now : Nat) (st : Store)
    (u : String) (w : World)
    (hu : resolveSourceUrl st = some u)
    (hfind : w.db.sources.find? (fun r => decide (r.sourceUrl = u)) = none) :
    ∃ n i2 sec itm cl rng cg,
      normalizeAndStoreStore env now st w =
        ({ w with
            db := { w.db with
              opCount := n,
              restaurants := w.db.restaurants ++ [restaurantRowOf st u w.db.nextId],
              sources := w.db.sources ++ [sourceRowOf st u w.db.nextId now],
              draftMenus := w.db.draftMenus ++
                [{ id := w.db.nextId + 1, restaurantId := w.db.nextId, source := "doordash",
                   sourceUrl := u, status := "unclaimed" }],
              draftSections := sec, draftItems := itm,
              nextId := i2, claims := cl },
            rngCount := rng },
         .ok ⟨true, cg⟩) := by
  unfold normalizeAndStoreStore
  rw [hu]
  dsimp only
  rw [findOrCreateRestaurant_new env hF now st u w hfind]
  dsimp only
  simp only [if_true]
  rw [insertDraftMenuOp_nf env hF]
  dsimp only
  obtain ⟨n2, i2, sec2, itm2, hsec⟩ := insertSections_effect env (w.db.nextId + 1)
    (collectCategories st) 0 _
  rw [hsec]
  obtain ⟨n3, rng3, cl3, b3, hcl⟩ := maybeIssueClaim_effect env now w.db.nextId true _
  rw [hcl]
  exact ⟨_, _, _, _, _, _, _, rfl⟩

/-! ### Claim issuance facts -/

theorem normalize_claims_step (env : Env) (hF : noDbFaults env) (now : Nat)
    (st : Store) (w : World) :
    (normalizeAndStoreStore env now st w).1.db.claims = w.db.claims ∨
    ∃ rid, w.db.claims.find? (fun r => decide (r.restaurantId = rid)) = none ∧
      (normalizeAndStoreStore env now st w).1.db.claims = w.db.claims ++
        [{ restaurantId := rid,
           codeHash := sha256 (generateClaimCode (env.rand w.rngCount)),
           expiresAt := now + 14 * 24 * 60 * 60 * 1000, claimedAt := none }] ∧
      (normalizeAndStoreStore env now st w).2 =
        .ok { restaurantCreated := true, claimCodeGenerated := true } := by
  cases hru : resolveSourceUrl st with
  | none =>
    left
    rw [normalize_noId env now st w hru]
  | some u =>
    cases hfind : w.db.sources.find? (fun r => decide (r.sourceUrl = u)) with
    | some row =>
      left
      obtain ⟨n, i2, sec, itm, hn⟩ := normalize_existing env hF now st u w row hru hfind
      rw [hn]
    | none =>
      unfold normalizeAndStoreStore
      rw [hru]
      dsimp only
      rw [findOrCreateRestaurant_new env hF now st u w hfind]
      dsimp only
      simp only [if_true]
      rw [insertDraftMenuOp_nf env hF]
      dsimp only
      obtain ⟨n2, i2, sec2, itm2, hsec⟩ := insertSections_effect env (w.db.nextId + 1)
        (collectCategories st) 0 _
      rw [hsec]
      unfold maybeIssueClaim
      simp only [if_true]
      rw [selectClaimOp_nf env hF]
      dsimp only
      cases hclaim : w.db.claims.find? (fun r => decide (r.restaurantId = w.db.nextId)) with
      | some crow =>
        left
        rfl
      | none =>
        right
        refine ⟨w.db.nextId, hclaim, ?_, ?_⟩
        · rw [insertClaimOp_nf env hF]
        · rfl

theorem claims_count_step (env : Env) (hF : noDbFaults env) (now : Nat)
    (st : Store) (w : World)
    (hinv : ∀ r, w.db.claims.countP (fun c => decide (c.restaurantId = r)) ≤ 1) :
    ∀ r, (normalizeAndStoreStore env now st w).1.db.claims.countP
      (fun c => decide (c.restaurantId = r)) ≤ 1 := by
  intro r
  rcases normalize_claims_step env hF now st w with h | ⟨rid, hnone, h, -⟩
  · rw [h]
    exact hinv r
  · rw [h, List.countP_append]
    by_cases hr : rid = r
    · have h0 : w.db.claims.countP (fun c => decide (c.restaurantId = r)) = 0 := by
        rw [List.countP_eq_zero]
        intro c hc
        have := List.find?_eq_none.mp hnone c hc
        simpa [hr] using this
      rw [h0]
      simp [hr]
    · have h1 : List.countP (fun c => decide (c.restaurantId = r))
          [ClaimRow.mk rid (sha256 (generateClaimCode (env.rand w.rngCount)))
            (now + 14 * 24 * 60 * 60 * 1000) none] = 0 := by
        simp [hr]
      rw [h1]
      simpa using hinv r

theorem processStores_claims (env : Env) (hF : noDbFaults env) (now : Nat) :
    ∀ (stores : List Store) (w : World) (rc cc : Nat) (errs : List String),
    (∀ r, w.db.claims.countP (fun c => decide (c.restaurantId = r)) ≤ 1) →
    ∀ r, (processStores env now stores w rc cc errs).1.db.claims.countP
      (fun c => decide (c.restaurantId = r)) ≤ 1 := by
  intro stores
  induction stores with
  | nil => exact fun w rc cc errs hinv => hinv
  | cons st rest ih =>
    intro w rc cc errs hinv
    unfold processStores
    dsimp only
    cases hn : (normalizeAndStoreStore env now st w).2 with
    | ok flags => exact ih _ _ _ _ (claims_count_step env hF now st w hinv)
    | error e => exact ih _ _ _ _ (claims_count_step env hF now st w hinv)

theorem processRun_claims (env : Env) (hF : noDbFaults env) (now : Nat)
    (runId datasetId : String) (w : World)
    (hinv : ∀ r, w.db.claims.countP (fun c => decide (c.restaurantId = r)) ≤ 1) :
    ∀ r, (processSuccessfulRun env now runId datasetId w).1.db.claims.countP
      (fun c => decide (c.restaurantId = r)) ≤ 1 := by
  intro r
  unfold processSuccessfulRun
  dsimp only
  rw [selectImportByHash_nf env hF]
  dsimp only
  split
  · exact hinv r
  · rw [insertImportOp_nf env hF]
    rw [updateImportsByRunId_nf env hF]
    dsimp only
    apply processStores_claims env hF now
    exact hinv

theorem runIngestions_claims (env : Env) (hF : noDbFaults env) :
    ∀ (jobs : List (Nat × String × String)) (w : World),
    (∀ r, w.db.claims.countP (fun c => decide (c.restaurantId = r)) ≤ 1) →
    ∀ r, (runIngestions env jobs w).db.claims.countP
      (fun c => decide (c.restaurantId = r)) ≤ 1 := by
  intro jobs
  induction jobs with
  | nil => exact fun w hinv => hinv
  | cons job rest ih =>
    intro w hinv
    obtain ⟨t, rid, did⟩ := job
    exact ih _ (fun r => processRun_claims env hF t rid did w hinv r)

theorem insertItems_rand (env : Env) (r2 : Nat → List Nat) (sid : Nat) :
    ∀ (items : List RawItem) (pos : Nat) (w : World),
    insertItems { env with rand := r2 } sid items pos w = insertItems env sid items pos w := by
  intro items
  induction items with
  | nil => intro pos w; rfl
  | cons item rest ih =>
    intro pos w
    unfold insertItems
    dsimp only
    rw [show insertItemOp { env with rand := r2 } = insertItemOp env from rfl]
    exact ih (pos + 1) _

theorem insertSections_rand (env : Env) (r2 : Nat → List Nat) (dmid : Nat) :
    ∀ (cats : List ItemList) (pos : Nat) (w : World),
    insertSections { env with rand := r2 } dmid cats pos w =
      insertSections env dmid cats pos w := by
  intro cats
  induction cats with
  | nil => intro pos w; rfl
  | cons cat rest ih =>
    intro pos w
    unfold insertSections
    dsimp only
    rw [show insertSectionOp { env with rand := r2 } = insertSectionOp env from rfl]
    cases (insertSectionOp env dmid pos (cleanCategoryName cat.name) w).2 with
    | error e => exact ih (pos + 1) _
    | ok sid =>
      dsimp only
      rw [insertItems_rand env r2 sid]
      exact ih (pos + 1) _

theorem maybeIssueClaim_rand_flag (env : Env) (r2 : Nat → List Nat)
    (now rid : Nat) (created : Bool) (w : World) :
    (maybeIssueClaim { env with rand := r2 } now rid created w).2 =
      (maybeIssueClaim env now rid created w).2 := by
  unfold maybeIssueClaim
  cases created with
  | false => rfl
  | true =>
    dsimp only
    rw [show selectClaimOp { env with rand := r2 } = selectClaimOp env from rfl]
    cases (selectClaimOp env rid w).2 with
    | none => rfl
    | some row => rfl

theorem normalize_rand_independent (env : Env) (r2 : Nat → List Nat)
    (now : Nat) (st : Store) (w : World) :
    (normalizeAndStoreStore { env with rand := r2 } now st w).2 =
      (normalizeAndStoreStore env now st w).2 := by
  unfold normalizeAndStoreStore
  cases hru : resolveSourceUrl st with
  | none => rfl
  | some u =>
    dsimp only
    rw [show findOrCreateRestaurant { env with rand := r2 } = findOrCreateRestaurant env by
      funext a b c d
      unfold findOrCreateRestaurant
      rw [show selectSourceByUrl { env with rand := r2 } = selectSourceByUrl env from rfl,
        show insertRestaurantOp { env with rand := r2 } = insertRestaurantOp env from rfl,
        show insertSourceOp { env with rand := r2 } = insertSourceOp env from rfl]]
    cases hf : (findOrCreateRestaurant env now st u w).2 with
    | error e => rfl
    | ok p =>
      obtain ⟨rid, created⟩ := p
      dsimp only
      rw [show updateSourcesLastSeen { env with rand := r2 } = updateSourcesLastSeen env from rfl]
      rw [show insertDraftMenuOp { env with rand := r2 } = insertDraftMenuOp env from rfl]
      cases hdm : (insertDraftMenuOp env rid u
          (if created = true then (findOrCreateRestaurant env now st u w).1
           else updateSourcesLastSeen env u now (findOrCreateRestaurant env now st u w).1)).2 with
      | error e => rfl
      | ok dmid =>
        dsimp only
        rw [insertSections_rand env r2 dmid]
        rw [maybeIssueClaim_rand_flag env r2 now rid created]

/-- C4: claim single-issuance — (A) across any sequence of ingestion
runs, at most one claim row ever exists per restaurant (given the
invariant held initially); (B) one store-record normalization either
leaves the claims table unchanged, or — only for a newly created
restaurant with no visible claim row — appends exactly one row holding
only the code's hash and an expiry of the creation instant plus 14
days, reporting `restaurantCreated = true`; (C) the value returned to
the caller is independent of the generated random code. -/
theorem claim_single_issuance (env : Env) (hF : noDbFaults env)
    (jobs : List (Nat × String × String)) (w0 : World)
    (hinv : ∀ r, w0.db.claims.countP (fun c => decide (c.restaurantId = r)) ≤ 1) :
    (∀ r, (runIngestions env jobs w0).db.claims.countP
        (fun c => decide (c.restaurantId = r)) ≤ 1) ∧
    (∀ (now : Nat) (st : Store) (w : World),
      (normalizeAndStoreStore env now st w).1.db.claims = w.db.claims ∨
      ∃ rid, w.db.claims.find? (fun c => decide (c.restaurantId = rid)) = none ∧
        (normalizeAndStoreStore env now st w).1.db.claims = w.db.claims ++
          [{ restaurantId := rid,
             codeHash := sha256 (generateClaimCode (env.rand w.rngCount)),
             expiresAt := now + 14 * 24 * 60 * 60 * 1000, claimedAt := none }] ∧
        (normalizeAndStoreStore env now st w).2 =
          .ok { restaurantCreated := true, claimCodeGenerated := true }) ∧
    (∀ (r2 : Nat → List Nat) (now : Nat) (st : Store) (w : World),
      (normalizeAndStoreStore { env with rand := r2 } now st w).2 =
        (normalizeAndStoreStore env now st w).2) :=
  ⟨runIngestions_claims env hF jobs w0 hinv,
   fun now st w => normalize_claims_step env hF now st w,
   fun r2 now st w => normalize_rand_independent env r2 now st w⟩

/-- Witness for C4 at a concrete environment, one job, empty store. -/
theorem claim_single_issuance_witness :
    ((runIngestions
        { apifyWebhookSecret := some "s", apifyToken := some "t",
          supabaseUrl := some "u", supabaseServiceRoleKey := some "k",
          datasets := fun _ => [], dbFault := fun _ => none, rand := fun _ => [] }
        [(0, "run1", "ds1")]
        { db := { imports := [], restaurants := [], sources := [], draftMenus := [],
                  draftSections := [], draftItems := [], claims := [], nextId := 0,
                  opCount := 0 },
          scrapeBlobs := [], fetchCount := 0, rngCount := 0 }).db.claims.countP
        (fun c => decide (c.restaurantId = 0))) ≤ 1 :=
  (claim_single_issuance
    { apifyWebhookSecret := some "s", apifyToken := some "t",
      supabaseUrl := some "u", supabaseServiceRoleKey := some "k",
      datasets := fun _ => [], dbFault := fun _ => none, rand := fun _ => [] }
    (fun _ => rfl)
    [(0, "run1", "ds1")]
    { db := { imports := [], restaurants := [], sources := [], draftMenus := [],
              draftSections := [], draftItems := [], claims := [], nextId := 0,
              opCount := 0 },
      scrapeBlobs := [], fetchCount := 0, rngCount := 0 }
    (fun _ => Nat.zero_le 1)).1 0

/-! ### Batch-loop characterization -/

theorem normalize_ok_facts (env : Env) (hF : noDbFaults env) (now : Nat)
    (st : Store) (w : World) (hid : storeHasIdentity st = true) :
    (∃ flags, (normalizeAndStoreStore env now st w).2 = .ok flags) ∧
    (normalizeAndStoreStore env now st w).1.db.imports = w.db.imports ∧
    (normalizeAndStoreStore env now st w).1.scrapeBlobs = w.scrapeBlobs ∧
    (normalizeAndStoreStore env now st w).1.fetchCount = w.fetchCount ∧
    (normalizeAndStoreStore env now st w).1.db.draftMenus.length =
      w.db.draftMenus.length + 1 := by
  obtain ⟨u, hu⟩ : ∃ u, resolveSourceUrl st = some u := by
    unfold storeHasIdentity at hid
    exact Option.isSome_iff_exists.mp hid
  cases hfind : w.db.sources.find? (fun r => decide (r.sourceUrl = u)) with
  | some row =>
    obtain ⟨n, i2, sec, itm, h⟩ := normalize_existing env hF now st u w row hu hfind
    rw [h]
    refine ⟨⟨_, rfl⟩, rfl, rfl, rfl, ?_⟩
    simp [List.length_append]
  | none =>
    obtain ⟨n, i2, sec, itm, cl, rng, cg, h⟩ := normalize_new env hF now st u w hu hfind
    rw [h]
    refine ⟨⟨_, rfl⟩, rfl, rfl, rfl, ?_⟩
    simp [List.length_append]

theorem normalize_fail_eq (env : Env) (now : Nat) (st : Store) (w : World)
    (hid : storeHasIdentity st = false) :
    normalizeAndStoreStore env now st w =
      (w, .error "Store has no URL and no restaurant ID") := by
  apply normalize_noId
  unfold storeHasIdentity at hid
  exact Option.not_isSome_iff_eq_none.mp (by simp [hid])

theorem processStores_spec (env : Env) (hF : noDbFaults env) (now : Nat) :
    ∀ (stores : List Store) (w : World) (rc cc : Nat) (errs : List String),
    (processStores env now stores w rc cc errs).2.2.2 =
      errs ++ (stores.filter (fun st => !storeHasIdentity st)).map
        (fun st => jsOrDefaultS st.url "unknown" ++ ": " ++ "Store has no URL and no restaurant ID") ∧
    (processStores env now stores w rc cc errs).1.db.imports = w.db.imports ∧
    (processStores env now stores w rc cc errs).1.scrapeBlobs = w.scrapeBlobs ∧
    (processStores env now stores w rc cc errs).1.fetchCount = w.fetchCount ∧
    (processStores env now stores w rc cc errs).1.db.draftMenus.length =
      w.db.draftMenus.length + (stores.filter (fun st => storeHasIdentity st)).length := by
  intro stores
  induction stores with
  | nil =>
    intro w rc cc errs
    exact ⟨by simp [processStores], rfl, rfl, rfl, by simp [processStores]⟩
  | cons st rest ih =>
    intro w rc cc errs
    unfold processStores
    dsimp only
    cases hid : storeHasIdentity st with
    | true =>
      obtain ⟨⟨flags, hok⟩, him, hbl, hfc, hdm⟩ := normalize_ok_facts env hF now st w hid
      rw [hok]
      dsimp only
      obtain ⟨ih1, ih2, ih3, ih4, ih5⟩ := ih (normalizeAndStoreStore env now st w).1
        (rc + if flags.restaurantCreated then 1 else 0)
        (cc + if flags.claimCodeGenerated then 1 else 0) errs
      refine ⟨?_, ?_, ?_, ?_, ?_⟩
      · rw [ih1]
        simp [List.filter_cons, hid]
      · rw [ih2, him]
      · rw [ih3, hbl]
      · rw [ih4, hfc]
      · rw [ih5, hdm]
        simp [List.filter_cons, hid]
        omega
    | false =>
      rw [normalize_fail_eq env now st w hid]
      dsimp only
      obtain ⟨ih1, ih2, ih3, ih4, ih5⟩ := ih w rc cc
        (errs ++ [jsOrDefaultS st.url "unknown" ++ ": " ++ "Store has no URL and no restaurant ID"])
      refine ⟨?_, ih2, ih3, ih4, ?_⟩
      · rw [ih1]
        simp [List.filter_cons, hid, List.append_assoc]
      · rw [ih5]
        simp [List.filter_cons, hid]

/-- C8: partial-failure isolation — one record's exception does not stop
its siblings: the run's import row ends `success` exactly when no
record threw and `partial` otherwise, its error summary is the
`'; '`-joined per-record messages (each naming the record's source
identifier, `'unknown'` when it has none) truncated to 1000 characters,
and one draft menu exists for every non-throwing record. -/
theorem partial_failure_isolation (env : Env) (hF : noDbFaults env)
    (now : Nat) (runId datasetId : String) (w0 : World)
    (hnohash : ∀ r ∈ w0.db.imports, r.payloadHash ≠ some (env.datasets datasetId))
    (hnorun : ∀ r ∈ w0.db.imports, r.runId ≠ runId) :
    (let items := env.datasets datasetId
     let errs := (items.filter (fun st => !storeHasIdentity st)).map
       (fun st => jsOrDefaultS st.url "unknown" ++ ": " ++ "Store has no URL and no restaurant ID")
     (processSuccessfulRun env now runId datasetId w0).1.db.imports =
       w0.db.imports ++
         [{ source := "doordash", runId := runId, datasetId := datasetId,
            payloadHash := some items, r2Key := "raw/dd/" ++ runId ++ ".json.gz",
            status := if errs.isEmpty then "success" else "partial",
            errorMessage := if errs.isEmpty then none
              else some ((String.intercalate "; " errs).take 1000),
            itemCount := some items.length }] ∧
     (processSuccessfulRun env now runId datasetId w0).1.db.draftMenus.length =
       w0.db.draftMenus.length +
         (items.filter (fun st => storeHasIdentity st)).length) := by
  dsimp only
  unfold processSuccessfulRun
  dsimp only
  rw [selectImportByHash_nf env hF]
  dsimp only
  have hfind : w0.db.imports.find?
      (fun r => decide (r.payloadHash = some (env.datasets datasetId))) = none := by
    rw [List.find?_eq_none]
    intro r hr
    simpa using hnohash r hr
  rw [hfind]
  simp only [Option.map_none', Option.getD_none]
  rw [if_neg (by decide)]
  rw [insertImportOp_nf env hF]
  dsimp only
  rw [(processStores_spec env hF now (env.datasets datasetId) _ 0 0 []).1]
  rw [updateImportsByRunId_nf env hF]
  dsimp only
  rw [(processStores_spec env hF now (env.datasets datasetId) _ 0 0 []).2.1]
  simp only [List.nil_append]
  constructor
  · rw [List.map_append]
    have hmap : w0.db.imports.map (fun r =>
        if r.runId = runId then { r with
          status := if ((env.datasets datasetId).filter (fun st => !storeHasIdentity st)).map
              (fun st => jsOrDefaultS st.url "unknown" ++ ": " ++
                "Store has no URL and no restaurant ID") |>.isEmpty then "success" else "partial",
          errorMessage := if ((env.datasets datasetId).filter (fun st => !storeHasIdentity st)).map
              (fun st => jsOrDefaultS st.url "unknown" ++ ": " ++
                "Store has no URL and no restaurant ID") |>.isEmpty then none
            else some ((String.intercalate "; "
              (((env.datasets datasetId).filter (fun st => !storeHasIdentity st)).map
                (fun st => jsOrDefaultS st.url "unknown" ++ ": " ++
                  "Store has no URL and no restaurant ID"))).take 1000) }
        else r) = w0.db.imports := by
      conv_rhs => rw [show w0.db.imports = w0.db.imports.map id from (List.map_id _).symm]
      apply List.map_congr_left
      intro r hr
      rw [if_neg (hnorun r hr)]
      rfl
    rw [hmap]
    simp
  · rw [(processStores_spec env hF now (env.datasets datasetId) _ 0 0 []).2.2.2.2]

/-- Witness for C8: a batch of 5 records where record 3 throws (it has
neither URL nor restaurant id) yields a `partial` import naming the
failing record, and 4 draft menus. -/
theorem partial_failure_isolation_witness :
    (let items := (testEnv (fun _ => [mkSimpleStore (some "https://r1/"),
        mkSimpleStore (some "https://r2/"), mkSimpleStore none,
        mkSimpleStore (some "https://r4/"), mkSimpleStore (some "https://r5/")])
        (fun _ => none)).datasets "ds1"
     let errs := (items.filter (fun st => !storeHasIdentity st)).map
       (fun st => jsOrDefaultS st.url "unknown" ++ ": " ++ "Store has no URL and no restaurant ID")
     (processSuccessfulRun (testEnv (fun _ => [mkSimpleStore (some "https://r1/"),
        mkSimpleStore (some "https://r2/"), mkSimpleStore none,
        mkSimpleStore (some "https://r4/"), mkSimpleStore (some "https://r5/")])
        (fun _ => none)) 0 "run1" "ds1" emptyWorld).1.db.imports =
       emptyWorld.db.imports ++
         [{ source := "doordash", runId := "run1", datasetId := "ds1",
            payloadHash := some items, r2Key := "raw/dd/" ++ "run1" ++ ".json.gz",
            status := if errs.isEmpty then "success" else "partial",
            errorMessage := if errs.isEmpty then none
              else some ((String.intercalate "; " errs).take 1000),
            itemCount := some items.length }] ∧
     (processSuccessfulRun (testEnv (fun _ => [mkSimpleStore (some "https://r1/"),
        mkSimpleStore (some "https://r2/"), mkSimpleStore none,
        mkSimpleStore (some "https://r4/"), mkSimpleStore (some "https://r5/")])
        (fun _ => none)) 0 "run1" "ds1" emptyWorld).1.db.draftMenus.length =
       emptyWorld.db.draftMenus.length +
         (items.filter (fun st => storeHasIdentity st)).length) ∧
    (processSuccessfulRun (testEnv (fun _ => [mkSimpleStore (some "https://r1/"),
        mkSimpleStore (some "https://r2/"), mkSimpleStore none,
        mkSimpleStore (some "https://r4/"), mkSimpleStore (some "https://r5/")])
        (fun _ => none)) 0 "run1" "ds1" emptyWorld).1.db.imports.map ImportRow.status =
      ["partial"] ∧
    (processSuccessfulRun (testEnv (fun _ => [mkSimpleStore (some "https://r1/"),
        mkSimpleStore (some "https://r2/"), mkSimpleStore none,
        mkSimpleStore (some "https://r4/"), mkSimpleStore (some "https://r5/")])
        (fun _ => none)) 0 "run1" "ds1" emptyWorld).1.db.draftMenus.length = 4 :=
  ⟨partial_failure_isolation (testEnv (fun _ => [mkSimpleStore (some "https://r1/"),
      mkSimpleStore (some "https://r2/"), mkSimpleStore none,
      mkSimpleStore (some "https://r4/"), mkSimpleStore (some "https://r5/")])
      (fun _ => none)) (fun _ => rfl) 0 "run1" "ds1" emptyWorld
      (by decide) (by decide),
   by decide, by decide⟩

/-- C3: identity stability — two ingestion runs presenting the same
source URL leave exactly one source row for that URL (the second run
refreshing only its `last_seen_at`, which strictly increases) and
exactly one restaurant row, whose name/address fields come from the
first run only, whatever venue name the second run carries; the second
run creates no restaurant and no claim. -/
theorem identity_stability (env : Env) (hF : noDbFaults env) (now1 now2 : Nat)
    (st1 st2 : Store) (u : String) (w0 : World)
    (h1 : st1.url = some u) (h2 : st2.url = some u) (hu : u ≠ "")
    (hnosrc : ∀ r ∈ w0.db.sources, r.sourceUrl ≠ u)
    (hids : ∀ r ∈ w0.db.restaurants, r.id < w0.db.nextId)
    (ht : now1 < now2) :
    (let w1 := (normalizeAndStoreStore env now1 st1 w0).1
     let w2 := (normalizeAndStoreStore env now2 st2 w1).1
     w1.db.sources.filter (fun r => decide (r.sourceUrl = u)) =
       [sourceRowOf st1 u w0.db.nextId now1] ∧
     w2.db.sources.filter (fun r => decide (r.sourceUrl = u)) =
       [sourceRowOf st1 u w0.db.nextId now2] ∧
     now1 < now2 ∧
     w2.db.restaurants = w0.db.restaurants ++ [restaurantRowOf st1 u w0.db.nextId] ∧
     w2.db.restaurants.countP (fun r => decide (r.id = w0.db.nextId)) = 1 ∧
     (normalizeAndStoreStore env now2 st2 w1).2 =
       .ok { restaurantCreated := false, claimCodeGenerated := false } ∧
     w2.db.claims = w1.db.claims) := by
  have hr1 : resolveSourceUrl st1 = some u := by
    unfold resolveSourceUrl
    rw [h1]
    simp [jsTruthyS, hu]
  have hr2 : resolveSourceUrl st2 = some u := by
    unfold resolveSourceUrl
    rw [h2]
    simp [jsTruthyS, hu]
  have hfind0 : w0.db.sources.find? (fun r => decide (r.sourceUrl = u)) = none := by
    rw [List.find?_eq_none]
    intro r hr
    simpa using hnosrc r hr
  obtain ⟨n, i2, sec, itm, cl, rng, cg, hrun1⟩ := normalize_new env hF now1 st1 u w0 hr1 hfind0
  have hfilter0 : w0.db.sources.filter (fun r => decide (r.sourceUrl = u)) = [] := by
    rw [List.filter_eq_nil_iff]
    intro r hr
    simpa using hnosrc r hr
  have hsrc1 : (normalizeAndStoreStore env now1 st1 w0).1.db.sources =
      w0.db.sources ++ [sourceRowOf st1 u w0.db.nextId now1] := by
    rw [hrun1]
  have hfind1 : (normalizeAndStoreStore env now1 st1 w0).1.db.sources.find?
      (fun r => decide (r.sourceUrl = u)) = some (sourceRowOf st1 u w0.db.nextId now1) := by
    rw [hsrc1, List.find?_append, hfind0]
    simp [List.find?_cons, sourceRowOf]
  obtain ⟨n2, i22, sec2, itm2, hrun2⟩ := normalize_existing env hF now2 st2 u
    (normalizeAndStoreStore env now1 st1 w0).1 (sourceRowOf st1 u w0.db.nextId now1) hr2 hfind1
  dsimp only
  refine ⟨?_, ?_, ht, ?_, ?_, ?_, ?_⟩
  · rw [hsrc1, List.filter_append, hfilter0]
    simp [sourceRowOf]
  · rw [hrun2]
    dsimp only
    rw [hsrc1, List.map_append, List.filter_append]
    have hm0 : (w0.db.sources.map (fun r =>
        if r.sourceUrl = u then { r with lastSeenAt := now2 } else r)).filter
        (fun r => decide (r.sourceUrl = u)) = [] := by
      rw [List.filter_eq_nil_iff]
      intro r hr
      obtain ⟨a, ha, rfl⟩ := List.mem_map.mp hr
      by_cases hau : a.sourceUrl = u
      · exact absurd hau (hnosrc a ha)
      · simp [hau]
    rw [hm0]
    simp [sourceRowOf]
  · rw [hrun2]
    dsimp only
    rw [hrun1]
  · rw [hrun2]
    dsimp only
    rw [hrun1]
    dsimp only
    rw [List.countP_append]
    have hc0 : w0.db.restaurants.countP (fun r => decide (r.id = w0.db.nextId)) = 0 := by
      rw [List.countP_eq_zero]
      intro r hr
      have := hids r hr
      simp only [decide_eq_true_eq]
      omega
    rw [hc0]
    simp [restaurantRowOf]
  · rw [hrun2]
  · rw [hrun2]

/-- Witness for C3: two runs of the same URL with different venue names. -/
theorem identity_stability_witness :
    (let w1 := (normalizeAndStoreStore (testEnv (fun _ => []) (fun _ => none)) 5
        { mkSimpleStore (some "https://www.doordash.com/store/alices-1/") with
          storeName := some "Alices" } emptyWorld).1
     let w2 := (normalizeAndStoreStore (testEnv (fun _ => []) (fun _ => none)) 9
        { mkSimpleStore (some "https://www.doordash.com/store/alices-1/") with
          storeName := some "Bobs" } w1).1
     w1.db.sources.filter (fun r => decide (r.sourceUrl = "https://www.doordash.com/store/alices-1/")) =
       [sourceRowOf { mkSimpleStore (some "https://www.doordash.com/store/alices-1/") with
          storeName := some "Alices" } "https://www.doordash.com/store/alices-1/" 0 5] ∧
     w2.db.sources.filter (fun r => decide (r.sourceUrl = "https://www.doordash.com/store/alices-1/")) =
       [sourceRowOf { mkSimpleStore (some "https://www.doordash.com/store/alices-1/") with
          storeName := some "Alices" } "https://www.doordash.com/store/alices-1/" 0 9] ∧
     5 < 9 ∧
     w2.db.restaurants = emptyWorld.db.restaurants ++
       [restaurantRowOf { mkSimpleStore (some "https://www.doordash.com/store/alices-1/") with
          storeName := some "Alices" } "https://www.doordash.com/store/alices-1/" 0] ∧
     w2.db.restaurants.countP (fun r => decide (r.id = 0)) = 1 ∧
     (normalizeAndStoreStore (testEnv (fun _ => []) (fun _ => none)) 9
        { mkSimpleStore (some "https://www.doordash.com/store/alices-1/") with
          storeName := some "Bobs" } w1).2 =
       .ok { restaurantCreated := false, claimCodeGenerated := false } ∧
     w2.db.claims = w1.db.claims) :=
  identity_stability (testEnv (fun _ => []) (fun _ => none)) (fun _ => rfl) 5 9
    { mkSimpleStore (some "https://www.doordash.com/store/alices-1/") with
      storeName := some "Alices" }
    { mkSimpleStore (some "https://www.doordash.com/store/alices-1/") with
      storeName := some "Bobs" }
    "https://www.doordash.com/store/alices-1/" emptyWorld
    rfl rfl (by decide) (by decide) (by decide) (by decide)

/-! ### Whole-run characterizations for the dedup analysis -/

theorem processRun_shortCircuit (env : Env) (hF : noDbFaults env) (now : Nat)
    (runId dsId : String) (w : World) (row : ImportRow)
    (hfind : w.db.imports.find?
      (fun r => decide (r.payloadHash = some (env.datasets dsId))) = some row)
    (hst : row.status = "success") :
    processSuccessfulRun env now runId dsId w =
      ({ w with
          db := { w.db with opCount := w.db.opCount + 1 },
          fetchCount := w.fetchCount + 1 },
       { r2Key := "raw/dd/" ++ runId ++ ".json.gz",
         itemCount := (env.datasets dsId).length,
         restaurantsCreated := 0, claimCodesGenerated := 0 }) := by
  unfold processSuccessfulRun
  dsimp only
  rw [selectImportByHash_nf env hF]
  dsimp only
  rw [hfind]
  simp only [Option.map_some', Option.getD_some]
  rw [if_pos hst]

theorem processRun_clean_spec (env : Env) (hF : noDbFaults env) (now : Nat)
    (runId dsId : String) (w : World)
    (hnohash : ∀ r ∈ w.db.imports, r.payloadHash ≠ some (env.datasets dsId))
    (hnorun : ∀ r ∈ w.db.imports, r.runId ≠ runId)
    (hall : ∀ st ∈ env.datasets dsId, storeHasIdentity st = true) :
    (processSuccessfulRun env now runId dsId w).1.db.imports =
      w.db.imports ++
        [{ source := "doordash", runId := runId, datasetId := dsId,
           payloadHash := some (env.datasets dsId),
           r2Key := "raw/dd/" ++ runId ++ ".json.gz",
           status := "success", errorMessage := none,
           itemCount := some (env.datasets dsId).length }] ∧
    (processSuccessfulRun env now runId dsId w).1.scrapeBlobs =
      putAssoc runId
        { runId := runId, datasetId := dsId, payload := env.datasets dsId,
          itemCount := (env.datasets dsId).length } w.scrapeBlobs ∧
    (processSuccessfulRun env now runId dsId w).2.r2Key =
      "raw/dd/" ++ runId ++ ".json.gz" := by
  have hfail : (env.datasets dsId).filter (fun st => !storeHasIdentity st) = [] := by
    rw [List.filter_eq_nil_iff]
    intro st hst
    simp [hall st hst]
  unfold processSuccessfulRun
  dsimp only
  rw [selectImportByHash_nf env hF]
  dsimp only
  have hfind : w.db.imports.find?
      (fun r => decide (r.payloadHash = some (env.datasets dsId))) = none := by
    rw [List.find?_eq_none]
    intro r hr
    simpa using hnohash r hr
  rw [hfind]
  simp only [Option.map_none', Option.getD_none]
  rw [if_neg (by decide)]
  rw [insertImportOp_nf env hF]
  dsimp only
  rw [(processStores_spec env hF now (env.datasets dsId) _ 0 0 []).1]
  rw [updateImportsByRunId_nf env hF]
  dsimp only
  rw [(processStores_spec env hF now (env.datasets dsId) _ 0 0 []).2.1,
    (processStores_spec env hF now (env.datasets dsId) _ 0 0 []).2.2.1]
  rw [hfail]
  simp only [List.map_nil, List.append_nil, List.isEmpty_nil, if_true]
  refine ⟨?_, trivial, trivial⟩
  rw [List.map_append]
  have hmap : w.db.imports.map (fun r =>
      if r.runId = runId then
        { r with status := "success", errorMessage := (none : Option String) }
      else r) = w.db.imports := by
    conv_rhs => rw [show w.db.imports = w.db.imports.map id from (List.map_id _).symm]
    apply List.map_congr_left
    intro r hr
    rw [if_neg (hnorun r hr)]
    rfl
  rw [hmap]
  simp

/-- Counterexample to C1 as stated: the dedup check consults only the
first import row whose fingerprint matches (`.single()` takes
`data[0]`).  After run 1 fails partially (transient insert error at
statement 3) and run 2 succeeds on the identical payload, the table
holds `[partial(h), success(h)]`; a redelivery of run 2 — although an
row with the same payload hash and status `success` exists — is
not short-circuited: it appends another import row, another draft
menu, and ends with two `success` rows for the same fingerprint. -/
theorem idempotent_ingestion_counterexample :
    (let env := testEnv (fun _ => [mkSimpleStore (some "https://r1/")])
        (fun n => if n = 3 then some "transient db error" else none)
     let w1 := (processSuccessfulRun env 1 "run1" "ds" emptyWorld).1
     let w2 := (processSuccessfulRun env 2 "run2" "ds" w1).1
     let w3 := (processSuccessfulRun env 3 "run2" "ds" w2).1
     w2.db.imports.countP (fun r => decide (r.payloadHash =
        some [mkSimpleStore (some "https://r1/")] ∧ r.status = "success")) = 1 ∧
     w3.db.imports.length = w2.db.imports.length + 1 ∧
     w3.db.draftMenus.length = w2.db.draftMenus.length + 1 ∧
     w3.db.imports.countP (fun r => decide (r.payloadHash =
        some [mkSimpleStore (some "https://r1/")] ∧ r.status = "success")) = 2) := by
  decide

/-- C1 (amended): the short-circuit fires when the *first* import row
matching the payload fingerprint has status `success` — then the run
performs no writes at all (only the fetch and statement counters move)
and reports the same archive key with zero counts.  Consequently, from
a state with no import row for the payload or the run id, submitting
the identical batch twice (all records resolving) yields exactly one
`success` import row for the fingerprint, exactly one archived blob
under the run's key, identical archive keys in both responses, zero
newly-created counts on the second submission, and no change to any
persisted table from the second submission. -/
theorem idempotent_ingestion_amended (env : Env) (hF : noDbFaults env) :
    (∀ (now : Nat) (runId dsId : String) (w : World) (row : ImportRow),
      w.db.imports.find? (fun r => decide (r.payloadHash = some (env.datasets dsId))) =
        some row →
      row.status = "success" →
      processSuccessfulRun env now runId dsId w =
        ({ w with
            db := { w.db with opCount := w.db.opCount + 1 },
            fetchCount := w.fetchCount + 1 },
         { r2Key := "raw/dd/" ++ runId ++ ".json.gz",
           itemCount := (env.datasets dsId).length,
           restaurantsCreated := 0, claimCodesGenerated := 0 })) ∧
    (∀ (t1 t2 : Nat) (runId dsId : String) (w0 : World),
      (∀ r ∈ w0.db.imports, r.payloadHash ≠ some (env.datasets dsId)) →
      (∀ r ∈ w0.db.imports, r.runId ≠ runId) →
      (∀ st ∈ env.datasets dsId, storeHasIdentity st = true) →
      (let p1 := processSuccessfulRun env t1 runId dsId w0
       let p2 := processSuccessfulRun env t2 runId dsId p1.1
       p2.1.db.imports = p1.1.db.imports ∧
       p2.1.db.restaurants = p1.1.db.restaurants ∧
       p2.1.db.sources = p1.1.db.sources ∧
       p2.1.db.draftMenus = p1.1.db.draftMenus ∧
       p2.1.db.draftSections = p1.1.db.draftSections ∧
       p2.1.db.draftItems = p1.1.db.draftItems ∧
       p2.1.db.claims = p1.1.db.claims ∧
       p2.1.scrapeBlobs = p1.1.scrapeBlobs ∧
       p2.2.restaurantsCreated = 0 ∧
       p2.2.claimCodesGenerated = 0 ∧
       p2.2.r2Key = p1.2.r2Key ∧
       p2.1.db.imports.countP (fun r => decide (r.payloadHash = some (env.datasets dsId) ∧
         r.status = "success")) = 1 ∧
       p2.1.scrapeBlobs.countP (fun e => decide (e.1 = runId)) = 1)) := by
  constructor
  · intro now runId dsId w row hfind hst
    exact processRun_shortCircuit env hF now runId dsId w row hfind hst
  · intro t1 t2 runId dsId w0 hnohash hnorun hall
    obtain ⟨him, hbl, hkey⟩ := processRun_clean_spec env hF t1 runId dsId w0 hnohash hnorun hall
    have hfindw0 : w0.db.imports.find?
        (fun r => decide (r.payloadHash = some (env.datasets dsId))) = none := by
      rw [List.find?_eq_none]
      intro r hr
      simpa using hnohash r hr
    have hfind2 : (processSuccessfulRun env t1 runId dsId w0).1.db.imports.find?
        (fun r => decide (r.payloadHash = some (env.datasets dsId))) =
        some {
          source := "doordash", runId := runId, datasetId := dsId,
          payloadHash := some (env.datasets dsId),
          r2Key := "raw/dd/" ++ runId ++ ".json.gz",
          status := "success", errorMessage := none,
          itemCount := some (env.datasets dsId).length } := by
      rw [him, List.find?_append, hfindw0]
      simp [List.find?_cons]
    have hsc := processRun_shortCircuit env hF t2 runId dsId
      (processSuccessfulRun env t1 runId dsId w0).1 _ hfind2 rfl
    dsimp only
    rw [hsc]
    refine ⟨rfl, rfl, rfl, rfl, rfl, rfl, rfl, rfl, rfl, rfl, ?_, ?_, ?_⟩
    · rw [hkey]
    · rw [him, List.countP_append]
      have h0 : w0.db.imports.countP (fun r => decide (r.payloadHash =
          some (env.datasets dsId) ∧ r.status = "success")) = 0 := by
        rw [List.countP_eq_zero]
        intro r hr
        simp only [decide_eq_true_eq, not_and]
        intro hh
        exact absurd hh (hnohash r hr)
      rw [h0]
      simp
    · rw [hbl]
      exact countP_putKV_self runId _ w0.scrapeBlobs

/-- Witness for the amended C1 theorem: with a fault-free environment and a
world already holding a `success` import row for the payload, a redelivery
only advances the counters and reports zero counts. -/
theorem idempotent_ingestion_amended_witness :
    (let env := testEnv (fun _ => [mkSimpleStore (some "https://r1/")]) (fun _ => none)
     let w : World := { emptyWorld with
       db := { emptyWorld.db with
         imports := [{
           source := "doordash", runId := "runX", datasetId := "ds",
           payloadHash := some [mkSimpleStore (some "https://r1/")],
           r2Key := "raw/dd/runX.json.gz", status := "success",
           errorMessage := none, itemCount := some 1 }] } }
     processSuccessfulRun env 5 "run2" "ds" w =
       ({ w with
          db := { w.db with opCount := w.db.opCount + 1 },
          fetchCount := w.fetchCount + 1 },
        { r2Key := "raw/dd/" ++ "run2" ++ ".json.gz",
          itemCount := 1, restaurantsCreated := 0, claimCodesGenerated := 0 })) := by
  exact (idempotent_ingestion_amended _ (fun _ => rfl)).1 5 "run2" "ds" _ _ rfl rfl

theorem processRun_import_row (env : Env) (hF : noDbFaults env)
    (now : Nat) (runId dsId : String) (w0 : World)
    (hnohash : ∀ r ∈ w0.db.imports, r.payloadHash ≠ some (env.datasets dsId))
    (hnorun : ∀ r ∈ w0.db.imports, r.runId ≠ runId) :
    (let errs := ((env.datasets dsId).filter (fun st => !storeHasIdentity st)).map
       (fun st => jsOrDefaultS st.url "unknown" ++ ": " ++ "Store has no URL and no restaurant ID")
     (processSuccessfulRun env now runId dsId w0).1.db.imports =
       w0.db.imports ++
         [{ source := "doordash", runId := runId, datasetId := dsId,
            payloadHash := some (env.datasets dsId),
            r2Key := "raw/dd/" ++ runId ++ ".json.gz",
            status := if errs.isEmpty then "success" else "partial",
            errorMessage := if errs.isEmpty then none
              else some ((String.intercalate "; " errs).take 1000),
            itemCount := some (env.datasets dsId).length }]) := by
  dsimp only
  unfold processSuccessfulRun
  dsimp only
  rw [selectImportByHash_nf env hF]
  dsimp only
  have hfind : w0.db.imports.find?
      (fun r => decide (r.payloadHash = some (env.datasets dsId))) = none := by
    rw [List.find?_eq_none]
    intro r hr
    simpa using hnohash r hr
  rw [hfind]
  simp only [Option.map_none', Option.getD_none]
  rw [if_neg (by decide)]
  rw [insertImportOp_nf env hF]
  dsimp only
  rw [(processStores_spec env hF now (env.datasets dsId) _ 0 0 []).1]
  rw [updateImportsByRunId_nf env hF]
  dsimp only
  rw [(processStores_spec env hF now (env.datasets dsId) _ 0 0 []).2.1]
  simp only [List.nil_append]
  rw [List.map_append]
  have hmap : w0.db.imports.map (fun r =>
      if r.runId = runId then { r with
        status := if ((env.datasets dsId).filter (fun st => !storeHasIdentity st)).map
            (fun st => jsOrDefaultS st.url "unknown" ++ ": " ++
              "Store has no URL and no restaurant ID") |>.isEmpty then "success" else "partial",
        errorMessage := if ((env.datasets dsId).filter (fun st => !storeHasIdentity st)).map
            (fun st => jsOrDefaultS st.url "unknown" ++ ": " ++
              "Store has no URL and no restaurant ID") |>.isEmpty then none
          else some ((String.intercalate "; "
            (((env.datasets dsId).filter (fun st => !storeHasIdentity st)).map
              (fun st => jsOrDefaultS st.url "unknown" ++ ": " ++
                "Store has no URL and no restaurant ID"))).take 1000) }
      else r) = w0.db.imports := by
    conv_rhs => rw [show w0.db.imports = w0.db.imports.map id from (List.map_id _).symm]
    apply List.map_congr_left
    intro r hr
    rw [if_neg (hnorun r hr)]
    rfl
  rw [hmap]
  simp

/-- Counterexample to C9 as stated: a one-store batch whose only
category block's `draft_sections` insert fails (statement 6) still ends
with a single import row of status `success` and a null error message —
the section (and its item) is missing from the draft, yet nothing in
the job row reveals it.  The failure was logged and skipped. -/
theorem no_silent_swallowing_counterexample :
    (let env := testEnv (fun _ => [c9store])
        (fun n => if n = 6 then some "insert failed" else none)
     let w := (processSuccessfulRun env 1 "run1" "ds" emptyWorld).1
     w.db.imports.map (fun r => (r.status, r.errorMessage)) = [("success", none)] ∧
     w.db.draftMenus.length = 1 ∧
     w.db.draftSections = [] ∧
     w.db.draftItems = []) := by
  decide

/-- C9 (amended): failures thrown inside the per-store loop are
observable — when the tabular store is healthy and some record in the
batch lacks an identity, the run's import row ends with status
`partial` and a non-null error summary.  But entity-level persistence
failures below that are swallowed: a failed `draft_sections` insert is
logged and skipped (its items are never attempted and the loop
continues with the next category), and a failed `draft_items` insert
is ignored outright — neither reaches the job's status or summary. -/
theorem no_silent_swallowing_amended (env : Env) :
    (noDbFaults env →
     ∀ (now : Nat) (runId dsId : String) (w0 : World),
      (∀ r ∈ w0.db.imports, r.payloadHash ≠ some (env.datasets dsId)) →
      (∀ r ∈ w0.db.imports, r.runId ≠ runId) →
      (∃ st ∈ env.datasets dsId, storeHasIdentity st = false) →
      (let errs := ((env.datasets dsId).filter (fun st => !storeHasIdentity st)).map
        (fun st => jsOrDefaultS st.url "unknown" ++ ": " ++ "Store has no URL and no restaurant ID")
       (processSuccessfulRun env now runId dsId w0).1.db.imports =
         w0.db.imports ++
           [{ source := "doordash", runId := runId, datasetId := dsId,
              payloadHash := some (env.datasets dsId),
              r2Key := "raw/dd/" ++ runId ++ ".json.gz",
              status := "partial",
              errorMessage := some ((String.intercalate "; " errs).take 1000),
              itemCount := some (env.datasets dsId).length }])) ∧
    (∀ (dmid : Nat) (cat : ItemList) (rest : List ItemList) (pos : Nat) (w : World)
      (e : String),
      env.dbFault w.db.opCount = some e →
      insertSections env dmid (cat :: rest) pos w =
        insertSections env dmid rest (pos + 1)
          { w with db := { w.db with opCount := w.db.opCount + 1 } }) ∧
    (∀ (row : ItemRow) (w : World) (e : String),
      env.dbFault w.db.opCount = some e →
      insertItemOp env row w =
        { w with db := { w.db with opCount := w.db.opCount + 1 } }) := by
  refine ⟨?_, ?_, ?_⟩
  · intro hF now runId dsId w0 hnohash hnorun hex
    dsimp only
    rw [processRun_import_row env hF now runId dsId w0 hnohash hnorun]
    obtain ⟨st, hmem, hid⟩ := hex
    have hfne : st ∈ (env.datasets dsId).filter (fun s => !storeHasIdentity s) :=
      List.mem_filter.mpr ⟨hmem, by simp [hid]⟩
    have herr : (((env.datasets dsId).filter (fun s => !storeHasIdentity s)).map
        (fun st => jsOrDefaultS st.url "unknown" ++ ": " ++
          "Store has no URL and no restaurant ID")).isEmpty = false := by
      cases hl : (env.datasets dsId).filter (fun s => !storeHasIdentity s) with
      | nil => rw [hl] at hfne; cases hfne
      | cons a as => rfl
    rw [herr]
    simp
  · intro dmid cat rest pos w e h
    simp only [insertSections, insertSectionOp, dbTick, h]
  · intro row w e h
    unfold insertItemOp dbTick
    dsimp only
    rw [h]
    rfl

/-- Witness for the amended C9 theorem: a healthy run over one
identity-less record ends `partial` with a summary, while under a
failing tabular store a section insert and an item insert are both
absorbed without any error surfacing. -/
theorem no_silent_swallowing_amended_witness :
    (let envA := testEnv (fun _ => [mkSimpleStore none]) (fun _ => none)
     let errs := ((envA.datasets "ds").filter (fun st => !storeHasIdentity st)).map
       (fun st => jsOrDefaultS st.url "unknown" ++ ": " ++ "Store has no URL and no restaurant ID")
     (processSuccessfulRun envA 1 "run1" "ds" emptyWorld).1.db.imports =
       emptyWorld.db.imports ++
         [{ source := "doordash", runId := "run1", datasetId := "ds",
            payloadHash := some (envA.datasets "ds"),
            r2Key := "raw/dd/" ++ "run1" ++ ".json.gz",
            status := "partial",
            errorMessage := some ((String.intercalate "; " errs).take 1000),
            itemCount := some (envA.datasets "ds").length }]) ∧
    (let envB := testEnv (fun _ => []) (fun _ => some "boom")
     insertSections envB 0 [{ name := none, items := none, sortOrder := none }] 0 emptyWorld =
       insertSections envB 0 [] 1
         { emptyWorld with db := { emptyWorld.db with opCount := emptyWorld.db.opCount + 1 } }) ∧
    (let envB := testEnv (fun _ => []) (fun _ => some "boom")
     insertItemOp envB ⟨0, 0, "x", none, none, none, none, none⟩ emptyWorld =
       { emptyWorld with db := { emptyWorld.db with opCount := emptyWorld.db.opCount + 1 } }) :=
  ⟨(no_silent_swallowing_amended (testEnv (fun _ => [mkSimpleStore none]) (fun _ => none))).1
      (fun _ => rfl) 1 "run1" "ds" emptyWorld (by decide) (by decide) (by decide),
   (no_silent_swallowing_amended (testEnv (fun _ => []) (fun _ => some "boom"))).2.1
      0 { name := none, items := none, sortOrder := none } [] 0 emptyWorld "boom" rfl,
   (no_silent_swallowing_amended (testEnv (fun _ => []) (fun _ => some "boom"))).2.2
      ⟨0, 0, "x", none, none, none, none, none⟩ emptyWorld "boom" rfl⟩

theorem length_insertSorted (key : ItemList → ℤ) (x : ItemList) :
    ∀ l : List ItemList, (insertSorted key x l).length = l.length + 1 := by
  intro l
  induction l with
  | nil => rfl
  | cons y ys ih =>
    unfold insertSorted
    by_cases h : key y < key x
    · rw [if_pos h]
      simp [ih]
    · rw [if_neg h]
      rfl

theorem length_sortByKey (key : ItemList → ℤ) :
    ∀ l : List ItemList, (sortByKey key l).length = l.length := by
  intro l
  induction l with
  | nil => rfl
  | cons y ys ih =>
    unfold sortByKey
    rw [length_insertSorted, ih]
    rfl

theorem insertSections_sections_nf (env : Env) (hF : noDbFaults env) (dmid : Nat) :
    ∀ (cats : List ItemList) (pos : Nat) (w : World),
    (insertSections env dmid cats pos w).db.draftSections =
      w.db.draftSections ++ sectionsFor dmid cats pos w.db.nextId := by
  intro cats
  induction cats with
  | nil =>
    intro pos w
    simp [insertSections, sectionsFor]
  | cons c cs ih =>
    intro pos w
    unfold insertSections
    dsimp only
    rw [insertSectionOp_nf env hF]
    dsimp only
    obtain ⟨n1, d1, h1⟩ := insertItems_effect env w.db.nextId (c.items.getD []) 0 _
    rw [h1]
    rw [ih (pos + 1) _]
    dsimp only
    simp [sectionsFor, List.append_assoc]

/-- Counterexample to C6 as stated: a store record with no `item_list_*`
blocks but a flat `menu` array whose single item carries its own
`category` field is never grouped — ingestion reads only `item_list_*`
and `menuCategories`, so the run succeeds with a draft menu that has no
sections and no items at all, and no `"Uncategorized"` bucket. -/
theorem category_fallback_counterexample :
    (let st : Store := { mkSimpleStore (some "https://r1/") with
       menu := some [{
         name := some "Burger", description := none, price := none,
         images := none, category := some "Mains", options := none }] }
     let env := testEnv (fun _ => [st]) (fun _ => none)
     let w := (processSuccessfulRun env 1 "run1" "ds" emptyWorld).1
     collectCategories st = [] ∧
     w.db.imports.map (fun r => (r.status, r.errorMessage)) = [("success", none)] ∧
     w.db.draftMenus.length = 1 ∧
     w.db.draftSections = [] ∧
     w.db.draftItems = []) := by
  decide

/-- C6 (amended): category resolution never reads the flat `menu` array
or any item-level category field.  Named `item_list_*` blocks holding
an items array take precedence, stably sorted by `sort_order || 0`;
when none exist the fallback is the pre-grouped legacy
`menuCategories` list used wholesale in its given order (and `[]` when
it is absent) — items are never regrouped.  A block without a name
yields a section named `"Uncategorized"`; on a healthy tabular store
the created sections are exactly the resolved blocks in order, named
by `cleanCategoryName`. -/
theorem category_fallback_amended (env : Env) :
    (∀ st : Store, st.itemLists.filter (fun c => c.items.isSome) ≠ [] →
      collectCategories st = sortByKey (fun c => c.sortOrder.getD 0)
        (st.itemLists.filter (fun c => c.items.isSome))) ∧
    (∀ st : Store, st.itemLists.filter (fun c => c.items.isSome) = [] →
      collectCategories st = st.menuCategories.getD []) ∧
    (∀ (st : Store) (m : Option (List RawItem)),
      collectCategories { st with menu := m } = collectCategories st) ∧
    cleanCategoryName none = "Uncategorized" ∧
    (noDbFaults env →
     ∀ (dmid : Nat) (cats : List ItemList) (pos : Nat) (w : World),
      (insertSections env dmid cats pos w).db.draftSections =
        w.db.draftSections ++ sectionsFor dmid cats pos w.db.nextId) := by
  refine ⟨?_, ?_, ?_, by decide, ?_⟩
  · intro st h
    unfold collectCategories
    dsimp only
    have hlen := length_sortByKey (fun c => c.sortOrder.getD 0)
      (st.itemLists.filter (fun c => c.items.isSome))
    cases hs : sortByKey (fun c => c.sortOrder.getD 0)
        (st.itemLists.filter (fun c => c.items.isSome)) with
    | nil =>
      rw [hs] at hlen
      exact absurd (List.length_eq_zero.mp hlen.symm) h
    | cons a as =>
      rfl
  · intro st h
    unfold collectCategories
    dsimp only
    rw [h]
    cases st.menuCategories with
    | none => rfl
    | some cats => rfl
  · intro st m
    rfl
  · intro hF dmid cats pos w
    exact insertSections_sections_nf env hF dmid cats pos w

/-- Witness for the amended C6 theorem: named blocks win and come out
sorted, the block-less store falls back to its `menuCategories` list
wholesale, and a nameless block produces an `"Uncategorized"` section. -/
theorem category_fallback_amended_witness :
    (collectCategories c6storeA = sortByKey (fun c => c.sortOrder.getD 0)
       (c6storeA.itemLists.filter (fun c => c.items.isSome))) ∧
    (collectCategories c6storeB = c6storeB.menuCategories.getD []) ∧
    (collectCategories { c6storeB with menu := some [] } = collectCategories c6storeB) ∧
    ((insertSections (testEnv (fun _ => []) (fun _ => none)) 0
        [{ name := none, items := some [], sortOrder := none }] 0
        emptyWorld).db.draftSections =
      emptyWorld.db.draftSections ++
        sectionsFor 0 [{ name := none, items := some [], sortOrder := none }] 0
          emptyWorld.db.nextId) ∧
    (insertSections (testEnv (fun _ => []) (fun _ => none)) 0
       [{ name := none, items := some [], sortOrder := none }] 0
       emptyWorld).db.draftSections =
      [{ id := 0, draftMenuId := 0, position := 0, name := "Uncategorized" }] :=
  ⟨(category_fallback_amended (testEnv (fun _ => []) (fun _ => none))).1
     c6storeA (by decide),
   (category_fallback_amended (testEnv (fun _ => []) (fun _ => none))).2.1
     c6storeB (by decide),
   (category_fallback_amended (testEnv (fun _ => []) (fun _ => none))).2.2.1
     c6storeB (some []),
   (category_fallback_amended (testEnv (fun _ => []) (fun _ => none))).2.2.2.2
     (fun _ => rfl) 0 [{ name := none, items := some [], sortOrder := none }] 0 emptyWorld,
   by decide⟩
